import Mathlib

set_option maxRecDepth 8000

/-!
Shallow embedding of the Calico eBPF assembler (`asm` package):
instruction encoding (`MakeInsn` and the byte accessors), the `Block`
builder with its label/fixup resolver, reachability filter, trampoline
injector, deferred-error policy and `Assemble`.
Machine integers are modelled as `Nat`/`Int` with explicit wrap-around
(`% 256`, `emod 65536`, ...) exactly where the Go code converts.
-/

namespace BpfAsm

/-- Reinterpret an unsigned 16-bit value as Go's `int16` (two's complement). -/
def toInt16 (u : Nat) : Int :=
  if u < 32768 then (u : Int) else (u : Int) - 65536

/-- Reinterpret an unsigned 32-bit value as Go's `int32` (two's complement). -/
def toInt32 (u : Nat) : Int :=
  if u < 2147483648 then (u : Int) else (u : Int) - 4294967296

/-- The 64 bits of a Go `int` (64-bit two's complement representation). -/
def regBits (r : Int) : Nat := (r % 18446744073709551616).toNat

/-- Byte 1 of an instruction: Go's `uint8(src<<4 | dst)` where `src`, `dst`
are 64-bit `int`s (`Reg`). The shift wraps at 64 bits, then the `uint8`
conversion keeps the low 8 bits. -/
def packRegs (dst src : Int) : Nat :=
  (((regBits src <<< 4) % 18446744073709551616) ||| regBits dst) % 256

/-- `Insn` is one 8-byte instruction: bytes `b0`..`b7` plus the
non-encoded diagnostic metadata that travels alongside. -/
structure Insn where
  b0 : Nat := 0
  b1 : Nat := 0
  b2 : Nat := 0
  b3 : Nat := 0
  b4 : Nat := 0
  b5 : Nat := 0
  b6 : Nat := 0
  b7 : Nat := 0
  labels : List String := []
  comments : List String := []
  annot : String := ""
deriving DecidableEq, Repr

/-- Opcode constants, bit-for-bit from the source. -/
def OpClassLoadImm : Nat := 0x0
def OpClassLoadReg : Nat := 0x1
def OpClassStoreImm : Nat := 0x2
def OpClassStoreReg : Nat := 0x3
def OpClassALU32 : Nat := 0x4
def OpClassJump64 : Nat := 0x5
def OpClassJump32 : Nat := 0x6
def OpClassALU64 : Nat := 0x7
def OpClassMask : Nat := 0b00000111

def MemOpModeImm : Nat := 0b00000000
def MemOpModeMem : Nat := 0b01100000
def MemOpSize8 : Nat := 0b00010000
def MemOpSize16 : Nat := 0b00001000
def MemOpSize32 : Nat := 0b00000000
def MemOpSize64 : Nat := 0b00011000

def ALUOpAdd : Nat := 0b00000000
def ALUOpMov : Nat := 0b10110000
def ALUSrcImm : Nat := 0b00000000
def ALUSrcReg : Nat := 0b00001000

def JumpOpA : Nat := 0x00
def JumpOpEq : Nat := 0x10
def JumpOpCall : Nat := 0x80
def JumpOpExit : Nat := 0x90

def LoadImm64 : Nat := OpClassLoadImm ||| MemOpModeImm ||| MemOpSize64
def LoadImm64Pt2 : Nat := 0
def JumpEq64 : Nat := OpClassJump64 ||| ALUSrcReg ||| JumpOpEq
def JumpEqImm64 : Nat := OpClassJump64 ||| ALUSrcImm ||| JumpOpEq
def JumpA : Nat := OpClassJump64 ||| ALUSrcImm ||| JumpOpA
def CallOp : Nat := OpClassJump64 ||| ALUSrcImm ||| JumpOpCall
def Exit : Nat := OpClassJump64 ||| ALUSrcImm ||| JumpOpExit
def Mov64 : Nat := OpClassALU64 ||| ALUSrcReg ||| ALUOpMov
def MovImm64 : Nat := OpClassALU64 ||| ALUSrcImm ||| ALUOpMov
def Add64 : Nat := OpClassALU64 ||| ALUSrcReg ||| ALUOpAdd
def LoadReg64 : Nat := OpClassLoadReg ||| MemOpModeMem ||| MemOpSize64
def StoreReg64 : Nat := OpClassStoreReg ||| MemOpModeMem ||| MemOpSize64

/-- `MakeInsn(opcode, dst, src, offset, imm)`: byte 0 the opcode, byte 1
`uint8(src<<4 | dst)`, bytes 2-3 `PutUint16(uint16(offset))` little endian,
bytes 4-7 `PutUint32(uint32(imm))` little endian. -/
def MakeInsn (opcode : Nat) (dst src : Int) (offset imm : Int) : Insn :=
  let off16 := (offset % 65536).toNat
  let imm32 := (imm % 4294967296).toNat
  { b0 := opcode % 256
    b1 := packRegs dst src
    b2 := off16 % 256
    b3 := (off16 >>> 8) % 256
    b4 := imm32 % 256
    b5 := (imm32 >>> 8) % 256
    b6 := (imm32 >>> 16) % 256
    b7 := (imm32 >>> 24) % 256 }

/-- `Insn.OpCode()`: byte 0. -/
def Insn.opCode (n : Insn) : Nat := n.b0

/-- `Insn.Dst()`: low nibble of byte 1. -/
def Insn.dst (n : Insn) : Int := (n.b1 &&& 0xf : Nat)

/-- `Insn.Src()`: high nibble of byte 1. -/
def Insn.src (n : Insn) : Int := ((n.b1 >>> 4) &&& 0xf : Nat)

/-- `Insn.Off()`: `int16(LittleEndian.Uint16(bytes 2-3))`. -/
def Insn.off (n : Insn) : Int := toInt16 (n.b2 ||| (n.b3 <<< 8))

/-- `Insn.Imm()`: `int32(LittleEndian.Uint32(bytes 4-7))`. -/
def Insn.imm (n : Insn) : Int :=
  toInt32 (((n.b4 ||| (n.b5 <<< 8)) ||| (n.b6 <<< 16)) ||| (n.b7 <<< 24))

/-- `Insn.OpClass()`: the low 3 bits of the opcode. -/
def Insn.opClass (n : Insn) : Nat := n.opCode &&& OpClassMask

/-- `Insns.AsBytes()`: concatenation of the per-instruction 8 bytes. -/
def insnsAsBytes (ns : List Insn) : List Nat :=
  ns.flatMap (fun n => [n.b0, n.b1, n.b2, n.b3, n.b4, n.b5, n.b6, n.b7])

/-- Association-list model of a Go map: lookup of a key. -/
def lookupA {κ α : Type} [DecidableEq κ] : List (κ × α) → κ → Option α
  | [], _ => none
  | (k, v) :: rest, key => if k = key then some v else lookupA rest key

/-- Association-list model of a Go map: set a key (replace or add). -/
def setA {κ α : Type} [DecidableEq κ] : List (κ × α) → κ → α → List (κ × α)
  | [], key, v => [(key, v)]
  | (k, w) :: rest, key, v =>
    if k = key then (key, v) :: rest else (k, w) :: setA rest key v

/-- Association-list model of a Go map: delete a key. -/
def removeA {κ α : Type} [DecidableEq κ] : List (κ × α) → κ → List (κ × α)
  | [], _ => []
  | (k, v) :: rest, key =>
    if k = key then removeA rest key else (k, v) :: removeA rest key

/-- `set.Set.Add`: insert a string if not already present. -/
def setAdd (s : List String) (x : String) : List String :=
  if x ∈ s then s else s ++ [x]

/-- The key set of a map modelled as a flat association list
(each Go map key appears once, as in `for k := range m`). -/
def keysOf {α : Type} (m : List (String × α)) : List String :=
  (m.map Prod.fst).dedup

/-- Assembler errors: the `fmt.Errorf` cases of the source. -/
inductive AsmErr where
  | missingLabel (label : String)
  | sameInsnJump (offset : Int) (label : String)
  | offsetOutOfRange (offset : Int) (label : String)
  | applyFixUpsFailed (label : String) (idx : Nat) (cause : AsmErr)
deriving DecidableEq, Repr

/-- The spec's RangeError class: offset out of signed-16-bit range or
exactly -1 (the two range cases of `applyFixUps`). -/
def isRangeError : AsmErr → Bool
  | .sameInsnJump _ _ => true
  | .offsetOutOfRange _ _ => true
  | _ => false

def trampolineHeadroom : Int := 100
def TrampolineStrideDefault : Int := 32767 - trampolineHeadroom

/-- The `Block` builder state. `fixUps` is the map `label -> []fixUp`
flattened into (label, origInsnIdx) pairs in registration order: a key is
present in the Go map exactly when its fixup list is non-empty. -/
structure Block where
  insns : List Insn := []
  fixUps : List (String × Nat) := []
  labelToInsnIdx : List (String × Nat) := []
  insnIdxToLabels : List (Nat × List String) := []
  insnIdxToComments : List (Nat × List String) := []
  inUseJumpTargets : List String := []
  policyDebugEnabled : Bool := false
  trampolinesEnabled : Bool := true
  trampolineIdx : Nat := 0
  lastTrampolineAddr : Nat := 0
  deferredErr : Option AsmErr := none
  numJumps : Nat := 0
  trampolineStride : Int := TrampolineStrideDefault
deriving DecidableEq, Repr

/-- `NewBlock(policyDebugEnabled)`. -/
def NewBlock (policyDebugEnabled : Bool) : Block :=
  { policyDebugEnabled := policyDebugEnabled }

/-- The fixup list pending on one label, in registration order. -/
def fixupsFor (b : Block) (label : String) : List Nat :=
  (b.fixUps.filter (fun p => p.1 = label)).map Prod.snd

/-- Labels recorded at an instruction index (`insnIdxToLabels[idx]`). -/
def labelsAt (m : List (Nat × List String)) (idx : Nat) : List String :=
  match lookupA m idx with
  | some ls => ls
  | none => []

/-- Patch the 16-bit offset field (bytes 2-3, little endian) of one
instruction: `PutUint16(insn.Instruction[2:4], uint16(offset))`. -/
def patchInsnOffset (n : Insn) (offset : Int) : Insn :=
  let off16 := (offset % 65536).toNat
  { n with b2 := off16 % 256, b3 := (off16 >>> 8) % 256 }

/-- Patch the offset field of the instruction at index `i`. -/
def patchOffset : List Insn → Nat → Int → List Insn
  | [], _, _ => []
  | n :: rest, 0, offset => patchInsnOffset n offset :: rest
  | n :: rest, i + 1, offset => n :: patchOffset rest i offset

/-- The loop body of `applyFixUps`: resolve each pending fixup of
`targetLabel` against the bound index, patching as it goes; on the first
bad offset it stops, returning the partially patched instructions and the
error (the Go code returns mid-loop). -/
def applyFixUpsLoop (labelIdx : Option Nat) (targetLabel : String) :
    List Nat → List Insn → List Insn × Option AsmErr
  | [], insns => (insns, none)
  | i :: rest, insns =>
    match labelIdx with
    | none => (insns, some (.missingLabel targetLabel))
    | some t =>
      let offset : Int := (t : Int) - (i : Int) - 1
      if offset = -1 then
        (insns, some (.sameInsnJump offset targetLabel))
      else if offset > 32767 ∨ offset < -32768 then
        (insns, some (.offsetOutOfRange offset targetLabel))
      else
        applyFixUpsLoop labelIdx targetLabel rest (patchOffset insns i offset)

/-- `applyFixUps(targetLabel)`: on success the fixup entry is deleted;
on failure the entry stays and the error is returned. -/
def Block.applyFixUpsB (b : Block) (targetLabel : String) :
    Block × Option AsmErr :=
  match applyFixUpsLoop (lookupA b.labelToInsnIdx targetLabel) targetLabel
      (fixupsFor b targetLabel) b.insns with
  | (insns', none) =>
    ({ b with insns := insns', fixUps := removeA b.fixUps targetLabel }, none)
  | (insns', some e) => ({ b with insns := insns' }, some e)

/-- `LabelNextInsn(label)`: bind the label at the next position, eagerly
resolve its fixups, and latch the first error as the deferred error. -/
def Block.labelNextInsn (b : Block) (label : String) : Block :=
  let n := b.insns.length
  let b1 : Block :=
    { b with
      labelToInsnIdx := setA b.labelToInsnIdx label n
      insnIdxToLabels :=
        setA b.insnIdxToLabels n (labelsAt b.insnIdxToLabels n ++ [label]) }
  match b1.applyFixUpsB label with
  | (b2, none) => b2
  | (b2, some e) =>
    if b2.deferredErr = none then
      { b2 with
        deferredErr := some (.applyFixUpsFailed label b2.insns.length e) }
    else b2

/-- `nextInsnReachable()`: first instruction, fall-through from a
non-terminal instruction, or an in-use label bound at this position. -/
def nextInsnReachable (b : Block) : Bool :=
  match b.insns.getLast? with
  | none => true
  | some lastInsn =>
    if lastInsn.opCode = JumpA ∨ lastInsn.opCode = Exit then
      (labelsAt b.insnIdxToLabels b.insns.length).any
        (fun l => b.inUseJumpTargets.contains l)
    else true

/-- `addInsnWithOffsetFixupNoTrampoline`: drop the instruction (and the
labels recorded at this position) when unreachable; otherwise append it
and register the offset fixup for a non-empty target label. -/
def Block.addInsnWithOffsetFixupNoTrampoline (b : Block) (insn : Insn)
    (targetLabel : String) : Block :=
  if nextInsnReachable b = false then
    { b with
      labelToInsnIdx :=
        (labelsAt b.insnIdxToLabels b.insns.length).foldl
          (fun m l => removeA m l) b.labelToInsnIdx
      insnIdxToLabels := removeA b.insnIdxToLabels b.insns.length }
  else
    let insn' :=
      if b.policyDebugEnabled ∧ targetLabel ≠ "" then
        { insn with annot := "goto " ++ targetLabel }
      else insn
    let newIdx := b.insns.length
    let b1 : Block := { b with insns := b.insns ++ [insn'] }
    let b2 : Block :=
      if targetLabel = "" then b1
      else
        { b1 with
          inUseJumpTargets := setAdd b1.inUseJumpTargets targetLabel
          fixUps := b1.fixUps ++ [(targetLabel, newIdx)] }
    if insn.opClass = OpClassJump64 ∨ insn.opClass = OpClassJump32 then
      { b2 with numJumps := b2.numJumps + 1 }
    else b2

/-- `JumpNoTrampoline(endLabel)`. -/
def Block.jumpNoTrampoline (b : Block) (endLabel : String) : Block :=
  b.addInsnWithOffsetFixupNoTrampoline (MakeInsn JumpA 0 0 0 0) endLabel

/-- `writeTrampoline`, with the (nondeterministic) Go map iteration order
of the outstanding fixup keys made an explicit parameter; the code sorts
it before use, for determinism. -/
def Block.writeTrampolineWith (b : Block) (order : List String) : Block :=
  let b0 : Block := { b with lastTrampolineAddr := b.insns.length }
  if b0.fixUps.isEmpty then b0
  else
    let labels := List.insertionSort (fun a c => a ≤ c) order
    let endLabel := "skip-trampoline-" ++ toString b0.trampolineIdx
    let b1 : Block := { b0 with trampolineIdx := b0.trampolineIdx + 1 }
    let b2 := b1.jumpNoTrampoline endLabel
    let b3 := labels.foldl
      (fun bb l => (bb.labelNextInsn l).jumpNoTrampoline l) b2
    b3.labelNextInsn endLabel

/-- `writeTrampoline` proper: iterate the outstanding fixup keys. -/
def Block.writeTrampoline (b : Block) : Block :=
  b.writeTrampolineWith (keysOf b.fixUps)

/-- `maybeWriteTrampoline(nextInsn)`. -/
def Block.maybeWriteTrampoline (b : Block) (nextInsn : Insn) : Block :=
  if b.trampolinesEnabled = false then b
  else if (b.insns.length : Int) - (b.lastTrampolineAddr : Int) <
      b.trampolineStride then b
  else if nextInsn.opCode = LoadImm64Pt2 then b
  else b.writeTrampoline

/-- `addInsnWithOffsetFixup`: trampoline check, then the append. -/
def Block.addInsnWithOffsetFixup (b : Block) (insn : Insn)
    (targetLabel : String) : Block :=
  (b.maybeWriteTrampoline insn).addInsnWithOffsetFixupNoTrampoline insn
    targetLabel

/-- `addInsn`. -/
def Block.addInsn (b : Block) (insn : Insn) : Block :=
  b.addInsnWithOffsetFixup insn ""

/-- `add(opcode, dst, src, offset, imm, annotation)`. -/
def Block.add (b : Block) (opcode : Nat) (dst src : Int) (offset imm : Int)
    ( annotation : String) : Block :=
  b.addInsn { MakeInsn opcode dst src offset imm with annot := annotation }

/-- `addWithOffsetFixup(opcode, dst, src, offsetLabel, imm)`. -/
def Block.addWithOffsetFixup (b : Block) (opcode : Nat) (dst src : Int)
    (offsetLabel : String) (imm : Int) : Block :=
  b.addInsnWithOffsetFixup (MakeInsn opcode dst src 0 imm) offsetLabel

/-- Builder method `Mov64(dst, src)`. -/
def Block.mov64 (b : Block) (dst src : Int) : Block :=
  b.add Mov64 dst src 0 0 ""

/-- Builder method `MovImm64(dst, imm)`. -/
def Block.movImm64 (b : Block) (dst : Int) (imm : Int) : Block :=
  b.add MovImm64 dst 0 0 imm ""

/-- Builder method `LoadImm64(dst, imm)`: the double-length instruction.
`int32(imm)` and `int32(imm>>32)` have the same 4 encoded bytes as `imm`
and `imm.fdiv 2^32` (arithmetic shift), which `MakeInsn` wraps mod 2^32. -/
def Block.loadImm64 (b : Block) (dst : Int) (imm : Int) : Block :=
  let b1 := b.add LoadImm64 dst 0 0 imm ""
  b1.add LoadImm64Pt2 0 0 0 (Int.fdiv imm 4294967296) ""

/-- Builder method `Jump(label)`. -/
def Block.jump (b : Block) (label : String) : Block :=
  b.addWithOffsetFixup JumpA 0 0 label 0

/-- Builder method `JumpEq64(ra, rb, label)` (a conditional jump). -/
def Block.jumpEq64 (b : Block) (ra rb : Int) (label : String) : Block :=
  b.addWithOffsetFixup JumpEq64 ra rb label 0

/-- Builder method `Exit()`. -/
def Block.exitInsn (b : Block) : Block :=
  b.add Exit 0 0 0 0 ""

/-- `SetTrampolinesEnabled(en)`. -/
def Block.setTrampolinesEnabled (b : Block) (en : Bool) : Block :=
  { b with trampolinesEnabled := en }

/-- `SetTrampolineStride(s)`: only strides strictly inside (0, 1<<14)
take effect. -/
def Block.setTrampolineStride (b : Block) (s : Int) : Block :=
  if s > 0 ∧ s < 16384 then { b with trampolineStride := s } else b

/-- `AddComment(comment)`. -/
def Block.addComment (b : Block) (comment : String) : Block :=
  if b.policyDebugEnabled = false then b
  else
    { b with
      insnIdxToComments :=
        setA b.insnIdxToComments b.insns.length
          (labelsAt b.insnIdxToComments b.insns.length ++ [comment]) }

/-- The final-resolution loop of `Assemble` over the outstanding fixup
keys: the first failing label aborts with its error. -/
def assembleLoop : List String → Block → Except AsmErr Block
  | [], b => .ok b
  | l :: ls, b =>
    match b.applyFixUpsB l with
    | (_, some e) => .error e
    | (b', none) => assembleLoop ls b'

/-- The debug annotation pass of `Assemble`: merge accumulated labels and
comments into the instruction metadata when `policyDebugEnabled`. -/
def Block.debugAnnotate (b : Block) : List Insn :=
  if b.policyDebugEnabled then
    b.insns.mapIdx (fun idx n =>
      { n with
        labels := n.labels ++ labelsAt b.insnIdxToLabels idx
        comments := n.comments ++ labelsAt b.insnIdxToComments idx })
  else b.insns

/-- `Assemble()`: the deferred error if set, else the final resolution
pass, else the finished instruction sequence. -/
def Block.assemble (b : Block) : Except AsmErr (List Insn) :=
  match b.deferredErr with
  | some e => .error e
  | none =>
    match assembleLoop (keysOf b.fixUps) b with
    | .error e => .error e
    | .ok b' => .ok b'.debugAnnotate

/-- Did assembly succeed? -/
def asmOk : Except AsmErr (List Insn) → Bool
  | .ok _ => true
  | .error _ => false

/-- One builder call of the public API, for quantifying over call
sequences. -/
inductive BuilderOp where
  | mov64 (dst src : Int)
  | movImm64 (dst : Int) (imm : Int)
  | loadImm64 (dst : Int) (imm : Int)
  | jump (label : String)
  | jumpEq64 (ra rb : Int) (label : String)
  | exitOp
  | labelOp (label : String)
  | commentOp (comment : String)
  | setTrampolinesEnabled (en : Bool)
  | setTrampolineStride (s : Int)
deriving DecidableEq, Repr

/-- Apply one builder call. -/
def Block.applyOp (b : Block) : BuilderOp → Block
  | .mov64 dst src => b.mov64 dst src
  | .movImm64 dst imm => b.movImm64 dst imm
  | .loadImm64 dst imm => b.loadImm64 dst imm
  | .jump label => b.jump label
  | .jumpEq64 ra rb label => b.jumpEq64 ra rb label
  | .exitOp => b.exitInsn
  | .labelOp label => b.labelNextInsn label
  | .commentOp comment => b.addComment comment
  | .setTrampolinesEnabled en => b.setTrampolinesEnabled en
  | .setTrampolineStride s => b.setTrampolineStride s

/-- Run a sequence of builder calls. -/
def Block.runOps (b : Block) (ops : List BuilderOp) : Block :=
  ops.foldl Block.applyOp b

/-- A concrete block holding one jump instruction with a fixup at index 0
on label "L", which is bound at index `t`: used to exercise the boundary
offsets of fixup resolution. -/
def fixupBlockAt (t : Nat) : Block :=
  { insns := [MakeInsn JumpA 0 0 0 0]
    fixUps := [("L", 0)]
    labelToInsnIdx := [("L", t)] }

/-- The encoded `Mov64 R1, R2` filler instruction. -/
def movInsn : Insn := MakeInsn Mov64 1 2 0 0

/-- The encoded unresolved unconditional jump. -/
def jmpAInsn : Insn := MakeInsn JumpA 0 0 0 0

/-- A synthetic program with one forward conditional jump spanning `N`
filler instructions. -/
def spanProg (N : Nat) : List BuilderOp :=
  [.jumpEq64 1 2 "L"] ++ List.replicate N (.mov64 1 2) ++
    [.labelOp "L", .exitOp]

/-- The same synthetic program with trampolines disabled first. -/
def spanProgNoTramp (N : Nat) : List BuilderOp :=
  .setTrampolinesEnabled false :: spanProg N

/-- A program whose forward jump spans more instructions (11) than its
configured trampoline stride (5), with trampolines disabled. -/
def shortSpanProg : List BuilderOp :=
  [.setTrampolineStride 5, .setTrampolinesEnabled false,
    .jumpEq64 1 2 "L"] ++ List.replicate 10 (.mov64 1 2) ++
    [.labelOp "L", .exitOp]

/-- The encoded conditional jump that opens the synthetic programs. -/
def jeqInsn : Insn := MakeInsn JumpEq64 1 2 0 0

/-- State after `jumpEq64` with trampolines disabled. -/
def spanS1Dis : Block :=
  { insns := [jeqInsn]
    fixUps := [("L", 0)]
    inUseJumpTargets := ["L"]
    trampolinesEnabled := false
    numJumps := 1 }

/-- State after the 32768 filler movs with trampolines disabled. -/
def spanS2Dis : Block :=
  { spanS1Dis with insns := spanS1Dis.insns ++ List.replicate 32768 movInsn }

/-- State after `jumpEq64` with trampolines enabled (the default). -/
def spanS1En : Block :=
  { insns := [jeqInsn]
    fixUps := [("L", 0)]
    inUseJumpTargets := ["L"]
    numJumps := 1 }

/-- State after the first 32666 filler movs with trampolines enabled. -/
def spanS2En : Block :=
  { spanS1En with insns := spanS1En.insns ++ List.replicate 32666 movInsn }

/-- Inside `writeTrampoline`: stride bookkeeping updated and the
trampoline counter bumped, before any instruction is emitted. -/
def spanB1En : Block :=
  { spanS2En with lastTrampolineAddr := 32667, trampolineIdx := 1 }

/-- After the skip-over jump of the trampoline has been emitted at index
32667, pending on `"skip-trampoline-0"`. -/
def spanB2En : Block :=
  { spanB1En with
    insns := spanS2En.insns ++ [jmpAInsn]
    inUseJumpTargets := ["L", "skip-trampoline-0"]
    fixUps := [("L", 0), ("skip-trampoline-0", 32667)]
    numJumps := 2 }

/-- After `"L"` has been rebound to the upcoming relay position 32668,
patching the original conditional jump at index 0 to offset 32667. -/
def spanB3En : Block :=
  { spanB2En with
    labelToInsnIdx := [("L", 32668)]
    insnIdxToLabels := [(32668, ["L"])]
    insns := patchOffset (spanS2En.insns ++ [jmpAInsn]) 0 32667
    fixUps := [("skip-trampoline-0", 32667)] }

/-- After the relay jump for `"L"` has been emitted at index 32668. -/
def spanB4En : Block :=
  { spanB3En with
    insns := patchOffset (spanS2En.insns ++ [jmpAInsn]) 0 32667 ++ [jmpAInsn]
    fixUps := [("skip-trampoline-0", 32667), ("L", 32668)]
    numJumps := 3 }

/-- The completed trampoline: the skip jump is patched to offset 1 and
the relay jump is pending on `"L"` from index 32668. -/
def spanWTEn : Block :=
  { spanB4En with
    labelToInsnIdx := [("L", 32668), ("skip-trampoline-0", 32669)]
    insnIdxToLabels := [(32668, ["L"]), (32669, ["skip-trampoline-0"])]
    insns := (patchOffset spanS2En.insns 0 32667 ++
      [patchInsnOffset jmpAInsn 1]) ++ [jmpAInsn]
    fixUps := [("L", 32668)] }

/-- After the trampoline-firing filler mov itself has been appended. -/
def spanS3En : Block :=
  { spanWTEn with insns := spanWTEn.insns ++ [movInsn] }

/-- After the remaining 101 filler movs. -/
def spanS4En : Block :=
  { spanS3En with insns := spanS3En.insns ++ List.replicate 101 movInsn }

/-- After `"L"` has been bound at index 32771, patching the relay jump at
index 32668 to offset 102. -/
def spanS5En : Block :=
  { spanS4En with
    labelToInsnIdx := [("L", 32771), ("skip-trampoline-0", 32669)]
    insnIdxToLabels := [(32668, ["L"]), (32669, ["skip-trampoline-0"]),
      (32771, ["L"])]
    insns := patchOffset spanS4En.insns 32668 102
    fixUps := [] }

/-- The final builder state of the trampolined synthetic program. -/
def spanS6En : Block :=
  { spanS5En with
    insns := spanS5En.insns ++ [MakeInsn Exit 0 0 0 0]
    numJumps := 4 }

/-! ### Encoding lemmas -/

theorem lor_shiftLeft_eq (a b k : Nat) (h : a < 2 ^ k) :
    a ||| (b <<< k) = 2 ^ k * b + a := by
  rw [Nat.shiftLeft_eq, Nat.mul_comm b (2 ^ k), Nat.lor_comm]
  exact (Nat.mul_add_lt_is_or h b).symm

theorem packFin : ∀ s d : Fin 16,
    (((s.1 <<< 4) % 18446744073709551616) ||| d.1) % 256 = 16 * s.1 + d.1 := by
  decide

theorem nibbleLoFin : ∀ s d : Fin 16, (16 * s.1 + d.1) &&& 15 = d.1 := by
  decide

theorem nibbleHiFin : ∀ s d : Fin 16, ((16 * s.1 + d.1) >>> 4) &&& 15 = s.1 := by
  decide

theorem regBits_small (r : Int) (h0 : 0 ≤ r) (h1 : r ≤ 15) :
    regBits r = r.toNat := by
  unfold regBits
  rw [Int.emod_eq_of_lt h0 (by omega)]

theorem packRegs_small (dst src : Int) (hd0 : 0 ≤ dst) (hd1 : dst ≤ 15)
    (hs0 : 0 ≤ src) (hs1 : src ≤ 15) :
    packRegs dst src = 16 * src.toNat + dst.toNat := by
  unfold packRegs
  rw [regBits_small dst hd0 hd1, regBits_small src hs0 hs1]
  exact packFin ⟨src.toNat, by omega⟩ ⟨dst.toNat, by omega⟩

theorem bytesLE16 (m : Nat) (h : m < 65536) :
    (m % 256) ||| (((m >>> 8) % 256) <<< 8) = m := by
  rw [Nat.shiftRight_eq_div_pow]
  rw [lor_shiftLeft_eq _ _ 8 (by omega)]
  have h8 : (2 : Nat) ^ 8 = 256 := by norm_num
  rw [h8] at *
  omega

theorem bytesLE32 (m : Nat) (h : m < 4294967296) :
    (((m % 256) ||| (((m >>> 8) % 256) <<< 8)) ||| (((m >>> 16) % 256) <<< 16))
      ||| (((m >>> 24) % 256) <<< 24) = m := by
  rw [Nat.shiftRight_eq_div_pow, Nat.shiftRight_eq_div_pow,
    Nat.shiftRight_eq_div_pow]
  rw [lor_shiftLeft_eq _ _ 8 (by omega)]
  rw [lor_shiftLeft_eq _ _ 16 (by norm_num; omega)]
  rw [lor_shiftLeft_eq _ _ 24 (by norm_num; omega)]
  have h8 : (2 : Nat) ^ 8 = 256 := by norm_num
  have h16 : (2 : Nat) ^ 16 = 65536 := by norm_num
  have h24 : (2 : Nat) ^ 24 = 16777216 := by norm_num
  rw [h8, h16, h24] at *
  omega

theorem makeInsn_bytes (opcode : Nat) (dst src offset imm : Int) :
    MakeInsn opcode dst src offset imm =
      { b0 := opcode % 256
        b1 := packRegs dst src
        b2 := (offset % 65536).toNat % 256
        b3 := ((offset % 65536).toNat >>> 8) % 256
        b4 := (imm % 4294967296).toNat % 256
        b5 := ((imm % 4294967296).toNat >>> 8) % 256
        b6 := ((imm % 4294967296).toNat >>> 16) % 256
        b7 := ((imm % 4294967296).toNat >>> 24) % 256 } := rfl

theorem makeInsn_off (opcode : Nat) (dst src offset imm : Int)
    (ho0 : -32768 ≤ offset) (ho1 : offset ≤ 32767) :
    (MakeInsn opcode dst src offset imm).off = offset := by
  rw [makeInsn_bytes]
  show toInt16 ((offset % 65536).toNat % 256 |||
    (((offset % 65536).toNat >>> 8) % 256) <<< 8) = offset
  rw [bytesLE16 _ (by omega)]
  unfold toInt16
  split <;> omega

theorem makeInsn_imm (opcode : Nat) (dst src offset imm : Int)
    (hi0 : -2147483648 ≤ imm) (hi1 : imm ≤ 2147483647) :
    (MakeInsn opcode dst src offset imm).imm = imm := by
  rw [makeInsn_bytes]
  show toInt32 ((((imm % 4294967296).toNat % 256 |||
      (((imm % 4294967296).toNat >>> 8) % 256) <<< 8) |||
      (((imm % 4294967296).toNat >>> 16) % 256) <<< 16) |||
      (((imm % 4294967296).toNat >>> 24) % 256) <<< 24) = imm
  rw [bytesLE32 _ (by omega)]
  unfold toInt32
  split <;> omega

theorem makeInsn_dst (opcode : Nat) (dst src offset imm : Int)
    (hd0 : 0 ≤ dst) (hd1 : dst ≤ 15) (hs0 : 0 ≤ src) (hs1 : src ≤ 15) :
    (MakeInsn opcode dst src offset imm).dst = dst := by
  rw [makeInsn_bytes]
  show ((packRegs dst src &&& 0xf : Nat) : Int) = dst
  rw [packRegs_small dst src hd0 hd1 hs0 hs1]
  rw [nibbleLoFin ⟨src.toNat, by omega⟩ ⟨dst.toNat, by omega⟩]
  show ((dst.toNat : Nat) : Int) = dst
  omega

theorem makeInsn_src (opcode : Nat) (dst src offset imm : Int)
    (hd0 : 0 ≤ dst) (hd1 : dst ≤ 15) (hs0 : 0 ≤ src) (hs1 : src ≤ 15) :
    (MakeInsn opcode dst src offset imm).src = src := by
  rw [makeInsn_bytes]
  show (((packRegs dst src >>> 4) &&& 0xf : Nat) : Int) = src
  rw [packRegs_small dst src hd0 hd1 hs0 hs1]
  rw [nibbleHiFin ⟨src.toNat, by omega⟩ ⟨dst.toNat, by omega⟩]
  show ((src.toNat : Nat) : Int) = src
  omega

/-- C2: every instruction built by `MakeInsn` (as used by all the named
builder methods) decodes through `OpCode()/Dst()/Src()/Off()/Imm()` back
to exactly the `(opcode, dst, src, offset, imm)` tuple it was given, with
byte 0 the opcode, byte 1 packing dst in the low nibble and src in the
high nibble, bytes 2-3 the little-endian signed 16-bit offset and bytes
4-7 the little-endian signed 32-bit immediate. -/
theorem C2_insn_roundTrip (opcode : Nat) (dst src offset imm : Int)
    (hop : opcode < 256) (hd0 : 0 ≤ dst) (hd1 : dst ≤ 10)
    (hs0 : 0 ≤ src) (hs1 : src ≤ 10)
    (ho0 : -32768 ≤ offset) (ho1 : offset ≤ 32767)
    (hi0 : -2147483648 ≤ imm) (hi1 : imm ≤ 2147483647) :
    (MakeInsn opcode dst src offset imm).opCode = opcode ∧
    (MakeInsn opcode dst src offset imm).dst = dst ∧
    (MakeInsn opcode dst src offset imm).src = src ∧
    (MakeInsn opcode dst src offset imm).off = offset ∧
    (MakeInsn opcode dst src offset imm).imm = imm ∧
    (MakeInsn opcode dst src offset imm).b0 = opcode ∧
    (MakeInsn opcode dst src offset imm).b1 = 16 * src.toNat + dst.toNat ∧
    ((MakeInsn opcode dst src offset imm).b2 : Int) +
      256 * ((MakeInsn opcode dst src offset imm).b3 : Int) =
        offset % 65536 ∧
    ((MakeInsn opcode dst src offset imm).b4 : Int) +
      256 * ((MakeInsn opcode dst src offset imm).b5 : Int) +
      65536 * ((MakeInsn opcode dst src offset imm).b6 : Int) +
      16777216 * ((MakeInsn opcode dst src offset imm).b7 : Int) =
        imm % 4294967296 := by
  refine ⟨?_, makeInsn_dst opcode dst src offset imm hd0 (by omega) hs0
      (by omega),
    makeInsn_src opcode dst src offset imm hd0 (by omega) hs0 (by omega),
    makeInsn_off opcode dst src offset imm ho0 ho1,
    makeInsn_imm opcode dst src offset imm hi0 hi1, ?_, ?_, ?_, ?_⟩
  · show opcode % 256 = opcode
    exact Nat.mod_eq_of_lt hop
  · show opcode % 256 = opcode
    exact Nat.mod_eq_of_lt hop
  · rw [makeInsn_bytes]
    show packRegs dst src = 16 * src.toNat + dst.toNat
    exact packRegs_small dst src hd0 (by omega) hs0 (by omega)
  · rw [makeInsn_bytes]
    show (((offset % 65536).toNat % 256 : Nat) : Int) +
      256 * ((((offset % 65536).toNat >>> 8) % 256 : Nat) : Int) =
        offset % 65536
    rw [Nat.shiftRight_eq_div_pow]
    have h8 : (2 : Nat) ^ 8 = 256 := by norm_num
    rw [h8]
    omega
  · rw [makeInsn_bytes]
    show (((imm % 4294967296).toNat % 256 : Nat) : Int) +
      256 * ((((imm % 4294967296).toNat >>> 8) % 256 : Nat) : Int) +
      65536 * ((((imm % 4294967296).toNat >>> 16) % 256 : Nat) : Int) +
      16777216 * ((((imm % 4294967296).toNat >>> 24) % 256 : Nat) : Int) =
        imm % 4294967296
    rw [Nat.shiftRight_eq_div_pow, Nat.shiftRight_eq_div_pow,
      Nat.shiftRight_eq_div_pow]
    have h8 : (2 : Nat) ^ 8 = 256 := by norm_num
    have h16 : (2 : Nat) ^ 16 = 65536 := by norm_num
    have h24 : (2 : Nat) ^ 24 = 16777216 := by norm_num
    rw [h8, h16, h24]
    omega

/-- C2 witness: a concrete conditional-jump encoding round-trips. -/
theorem C2_insn_roundTrip_w :
    ((29 : Nat) < 256 ∧ (0 : Int) ≤ 3 ∧ (3 : Int) ≤ 10 ∧ (0 : Int) ≤ 5 ∧
      (5 : Int) ≤ 10 ∧ (-32768 : Int) ≤ -2 ∧ (-2 : Int) ≤ 32767 ∧
      (-2147483648 : Int) ≤ -7 ∧ (-7 : Int) ≤ 2147483647) ∧
    ((MakeInsn 29 3 5 (-2) (-7)).opCode = 29 ∧
     (MakeInsn 29 3 5 (-2) (-7)).dst = 3 ∧
     (MakeInsn 29 3 5 (-2) (-7)).src = 5 ∧
     (MakeInsn 29 3 5 (-2) (-7)).off = -2 ∧
     (MakeInsn 29 3 5 (-2) (-7)).imm = -7 ∧
     (MakeInsn 29 3 5 (-2) (-7)).b0 = 29 ∧
     (MakeInsn 29 3 5 (-2) (-7)).b1 = 16 * (5 : Int).toNat + (3 : Int).toNat ∧
     ((MakeInsn 29 3 5 (-2) (-7)).b2 : Int) +
       256 * ((MakeInsn 29 3 5 (-2) (-7)).b3 : Int) = (-2 : Int) % 65536 ∧
     ((MakeInsn 29 3 5 (-2) (-7)).b4 : Int) +
       256 * ((MakeInsn 29 3 5 (-2) (-7)).b5 : Int) +
       65536 * ((MakeInsn 29 3 5 (-2) (-7)).b6 : Int) +
       16777216 * ((MakeInsn 29 3 5 (-2) (-7)).b7 : Int) =
         (-7 : Int) % 4294967296) :=
  ⟨by norm_num,
   C2_insn_roundTrip 29 3 5 (-2) (-7) (by norm_num) (by norm_num)
     (by norm_num) (by norm_num) (by norm_num) (by norm_num) (by norm_num)
     (by norm_num) (by norm_num)⟩

/-- C10: the decoded register accessors always land in [0, 15] (4-bit
nibbles with masking); `MakeInsn` round-trips the registers exactly when
both lie in [0, 15], and never when one lies outside. -/
theorem C10_register_nibbles :
    (∀ n : Insn, 0 ≤ n.dst ∧ n.dst ≤ 15 ∧ 0 ≤ n.src ∧ n.src ≤ 15) ∧
    (∀ (opcode : Nat) (dst src offset imm : Int),
      0 ≤ dst → dst ≤ 15 → 0 ≤ src → src ≤ 15 →
      (MakeInsn opcode dst src offset imm).dst = dst ∧
      (MakeInsn opcode dst src offset imm).src = src) ∧
    (∀ (opcode : Nat) (dst src offset imm : Int),
      (dst < 0 ∨ 15 < dst ∨ src < 0 ∨ 15 < src) →
      ¬((MakeInsn opcode dst src offset imm).dst = dst ∧
        (MakeInsn opcode dst src offset imm).src = src)) := by
  have hrange : ∀ n : Insn, 0 ≤ n.dst ∧ n.dst ≤ 15 ∧ 0 ≤ n.src ∧
      n.src ≤ 15 := by
    intro n
    unfold Insn.dst Insn.src
    refine ⟨Int.natCast_nonneg _, ?_, Int.natCast_nonneg _, ?_⟩
    · exact_mod_cast Nat.and_le_right
    · exact_mod_cast Nat.and_le_right
  refine ⟨hrange, ?_, ?_⟩
  · intro opcode dst src offset imm hd0 hd1 hs0 hs1
    exact ⟨makeInsn_dst opcode dst src offset imm hd0 hd1 hs0 hs1,
      makeInsn_src opcode dst src offset imm hd0 hd1 hs0 hs1⟩
  · intro opcode dst src offset imm hout h
    have h1 := hrange (MakeInsn opcode dst src offset imm)
    rw [h.1, h.2] at h1
    omega

/-- C10 witness: in-range registers round-trip; register 16 does not. -/
theorem C10_register_nibbles_w :
    ((MakeInsn 0 3 5 0 0).dst = 3 ∧ (MakeInsn 0 3 5 0 0).src = 5) ∧
    ¬((MakeInsn 0 16 0 0 0).dst = 16 ∧ (MakeInsn 0 16 0 0 0).src = 0) :=
  ⟨C10_register_nibbles.2.1 0 3 5 0 0 (by norm_num) (by norm_num)
     (by norm_num) (by norm_num),
   C10_register_nibbles.2.2 0 16 0 0 0 (by norm_num)⟩

/-- C9: `SetTrampolineStride(s)` updates the stride exactly when
`0 < s < 16384`, leaves it unchanged otherwise, and never changes any
other field of the Block. -/
theorem C9_setTrampolineStride (b : Block) (s : Int) :
    (b.setTrampolineStride s).trampolineStride =
      (if 0 < s ∧ s < 16384 then s else b.trampolineStride) ∧
    (b.setTrampolineStride s).insns = b.insns ∧
    (b.setTrampolineStride s).fixUps = b.fixUps ∧
    (b.setTrampolineStride s).labelToInsnIdx = b.labelToInsnIdx ∧
    (b.setTrampolineStride s).insnIdxToLabels = b.insnIdxToLabels ∧
    (b.setTrampolineStride s).insnIdxToComments = b.insnIdxToComments ∧
    (b.setTrampolineStride s).inUseJumpTargets = b.inUseJumpTargets ∧
    (b.setTrampolineStride s).policyDebugEnabled = b.policyDebugEnabled ∧
    (b.setTrampolineStride s).trampolinesEnabled = b.trampolinesEnabled ∧
    (b.setTrampolineStride s).trampolineIdx = b.trampolineIdx ∧
    (b.setTrampolineStride s).lastTrampolineAddr = b.lastTrampolineAddr ∧
    (b.setTrampolineStride s).deferredErr = b.deferredErr ∧
    (b.setTrampolineStride s).numJumps = b.numJumps := by
  unfold Block.setTrampolineStride
  by_cases h : s > 0 ∧ s < 16384
  · rw [if_pos h, if_pos ⟨h.1, h.2⟩]
    exact ⟨rfl, rfl, rfl, rfl, rfl, rfl, rfl, rfl, rfl, rfl, rfl, rfl, rfl⟩
  · rw [if_neg h, if_neg (by exact fun hc => h ⟨hc.1, hc.2⟩)]
    exact ⟨rfl, rfl, rfl, rfl, rfl, rfl, rfl, rfl, rfl, rfl, rfl, rfl, rfl⟩

/-! ### Fixup resolution -/

theorem patchInsnOffset_off (n : Insn) (offset : Int)
    (h0 : -32768 ≤ offset) (h1 : offset ≤ 32767) :
    (patchInsnOffset n offset).off = offset := by
  show toInt16 ((offset % 65536).toNat % 256 |||
    (((offset % 65536).toNat >>> 8) % 256) <<< 8) = offset
  rw [bytesLE16 _ (by omega)]
  unfold toInt16
  split <;> omega

theorem applyFixUpsLoop_single (t i : Nat) (L : String) (insns : List Insn) :
    applyFixUpsLoop (some t) L [i] insns =
      if (t : Int) - i - 1 = -1 then
        (insns, some (.sameInsnJump ((t : Int) - i - 1) L))
      else if (t : Int) - i - 1 > 32767 ∨ (t : Int) - i - 1 < -32768 then
        (insns, some (.offsetOutOfRange ((t : Int) - i - 1) L))
      else (patchOffset insns i ((t : Int) - i - 1), none) := by
  simp only [applyFixUpsLoop]

/-- C1: once label `L` is bound at index `t`, resolving a fixup registered
at instruction index `i` computes `offset = t - i - 1` and patches its
little-endian 16-bit encoding into bytes 2-3 of instruction `i` (the
patched field decodes back to that offset); resolution fails with a
RangeError exactly when the offset falls outside [-32768, 32767] or
equals -1, so 32767 and -32768 succeed while 32768 and -32769 fail. -/
theorem C1_fixup_resolution (b : Block) (L : String) (t i : Nat)
    (hbound : lookupA b.labelToInsnIdx L = some t)
    (hfix : fixupsFor b L = [i]) (_hi : i < b.insns.length) :
    (((t : Int) - i - 1 = -1 ∨ (t : Int) - i - 1 > 32767 ∨
        (t : Int) - i - 1 < -32768) →
      ∃ e, b.applyFixUpsB L = (b, some e) ∧ isRangeError e = true) ∧
    (¬((t : Int) - i - 1 = -1 ∨ (t : Int) - i - 1 > 32767 ∨
        (t : Int) - i - 1 < -32768) →
      b.applyFixUpsB L =
        ({ b with insns := patchOffset b.insns i ((t : Int) - i - 1),
                  fixUps := removeA b.fixUps L }, none) ∧
      (∀ n : Insn, (patchInsnOffset n ((t : Int) - i - 1)).off =
        (t : Int) - i - 1)) := by
  constructor
  · intro h
    by_cases h1 : (t : Int) - i - 1 = -1
    · refine ⟨.sameInsnJump ((t : Int) - i - 1) L, ?_, rfl⟩
      unfold Block.applyFixUpsB
      rw [hbound, hfix, applyFixUpsLoop_single, if_pos h1]
    · have h2 : (t : Int) - i - 1 > 32767 ∨ (t : Int) - i - 1 < -32768 := by
        rcases h with h | h | h
        · exact absurd h h1
        · exact Or.inl h
        · exact Or.inr h
      refine ⟨.offsetOutOfRange ((t : Int) - i - 1) L, ?_, rfl⟩
      unfold Block.applyFixUpsB
      rw [hbound, hfix, applyFixUpsLoop_single, if_neg h1, if_pos h2]
  · intro h
    have h1 : ¬((t : Int) - i - 1 = -1) := fun hc => h (Or.inl hc)
    have h2 : ¬((t : Int) - i - 1 > 32767 ∨ (t : Int) - i - 1 < -32768) :=
      fun hc => h (Or.inr hc)
    constructor
    · unfold Block.applyFixUpsB
      rw [hbound, hfix, applyFixUpsLoop_single, if_neg h1, if_neg h2]
    · intro n
      exact patchInsnOffset_off n _ (by omega) (by omega)

/-- C1 witness: the boundary offsets, at concrete blocks with one fixup
at instruction 0: binding at 32768 (offset 32767) succeeds and patches;
binding at 32769 (offset 32768) is a RangeError. -/
theorem C1_fixup_resolution_w :
    (lookupA (fixupBlockAt 32768).labelToInsnIdx "L" = some 32768 ∧
      fixupsFor (fixupBlockAt 32768) "L" = [0] ∧
      (0 : Nat) < (fixupBlockAt 32768).insns.length ∧
      (fixupBlockAt 32768).applyFixUpsB "L" =
        ({ fixupBlockAt 32768 with
            insns := patchOffset (fixupBlockAt 32768).insns 0
              (((32768 : Nat) : Int) - ((0 : Nat) : Int) - 1)
            fixUps := removeA (fixupBlockAt 32768).fixUps "L" }, none)) ∧
    (∃ e, (fixupBlockAt 32769).applyFixUpsB "L" =
        (fixupBlockAt 32769, some e) ∧ isRangeError e = true) :=
  ⟨⟨rfl, rfl, by decide,
    ((C1_fixup_resolution (fixupBlockAt 32768) "L" 32768 0 rfl rfl
      (by decide)).2 (by norm_num)).1⟩,
   (C1_fixup_resolution (fixupBlockAt 32769) "L" 32769 0 rfl rfl
     (by decide)).1 (by norm_num)⟩

/-! ### Association-list lemmas -/

theorem lookupA_removeA_self {κ α : Type} [DecidableEq κ]
    (m : List (κ × α)) (k : κ) : lookupA (removeA m k) k = none := by
  induction m with
  | nil => rfl
  | cons p rest ih =>
    obtain ⟨k', v⟩ := p
    unfold removeA
    by_cases h : k' = k
    · rw [if_pos h]; exact ih
    · rw [if_neg h]
      unfold lookupA
      rw [if_neg h]
      exact ih

theorem lookupA_removeA_none {κ α : Type} [DecidableEq κ]
    (m : List (κ × α)) (k l : κ) (h : lookupA m l = none) :
    lookupA (removeA m k) l = none := by
  induction m with
  | nil => rfl
  | cons p rest ih =>
    obtain ⟨k', v⟩ := p
    unfold lookupA at h
    by_cases h1 : k' = l
    · rw [if_pos h1] at h; exact absurd h (by simp)
    · rw [if_neg h1] at h
      unfold removeA
      by_cases h2 : k' = k
      · rw [if_pos h2]; exact ih h
      · rw [if_neg h2]
        unfold lookupA
        rw [if_neg h1]
        exact ih h

theorem lookupA_foldl_removeA_none {κ α : Type} [DecidableEq κ]
    (ls : List κ) (m : List (κ × α)) (l : κ) (h : lookupA m l = none) :
    lookupA (ls.foldl (fun mm x => removeA mm x) m) l = none := by
  induction ls generalizing m with
  | nil => exact h
  | cons x rest ih => exact ih _ (lookupA_removeA_none m x l h)

theorem lookupA_foldl_removeA_mem {κ α : Type} [DecidableEq κ]
    (ls : List κ) (m : List (κ × α)) (l : κ) (h : l ∈ ls) :
    lookupA (ls.foldl (fun mm x => removeA mm x) m) l = none := by
  induction ls generalizing m with
  | nil => cases h
  | cons x rest ih =>
    by_cases hx : l = x
    · subst hx
      exact lookupA_foldl_removeA_none rest _ l (lookupA_removeA_self m l)
    · exact ih _ (by cases h with
        | head => exact absurd rfl hx
        | tail _ h' => exact h')

/-! ### Builder-step lemmas -/

theorem nextInsnReachable_of_nil (b : Block) (h : b.insns = []) :
    nextInsnReachable b = true := by
  unfold nextInsnReachable
  rw [h]
  rfl

theorem nextInsnReachable_some (b : Block) (n : Insn)
    (hl : b.insns.getLast? = some n) :
    nextInsnReachable b =
      if n.opCode = JumpA ∨ n.opCode = Exit then
        (labelsAt b.insnIdxToLabels b.insns.length).any
          (fun l => b.inUseJumpTargets.contains l)
      else true := by
  unfold nextInsnReachable
  rw [hl]

theorem nextInsnReachable_of_last (b : Block) (n : Insn)
    (h : b.insns.getLast? = some n)
    (h5 : ¬(n.opCode = JumpA ∨ n.opCode = Exit)) :
    nextInsnReachable b = true := by
  rw [nextInsnReachable_some b n h]
  simp [h5]

theorem addNoTramp_insns_reachable (b : Block) (insn : Insn) (lbl : String)
    (hr : nextInsnReachable b = true) :
    (b.addInsnWithOffsetFixupNoTrampoline insn lbl).insns =
      b.insns ++ [if b.policyDebugEnabled ∧ lbl ≠ "" then
        { insn with annot := "goto " ++ lbl } else insn] := by
  unfold Block.addInsnWithOffsetFixupNoTrampoline
  rw [if_neg (by simp [hr])]
  split <;> split <;> split <;> rfl

theorem addNoTramp_unreachable (b : Block) (insn : Insn) (lbl : String)
    (hr : nextInsnReachable b = false) :
    b.addInsnWithOffsetFixupNoTrampoline insn lbl =
      { b with
        labelToInsnIdx :=
          (labelsAt b.insnIdxToLabels b.insns.length).foldl
            (fun m l => removeA m l) b.labelToInsnIdx
        insnIdxToLabels := removeA b.insnIdxToLabels b.insns.length } := by
  unfold Block.addInsnWithOffsetFixupNoTrampoline
  rw [if_pos hr]

/-- C5: an emitted instruction is appended by
`addInsnWithOffsetFixupNoTrampoline` exactly when reachable — (a) first
instruction, or (b) the previous instruction's opcode is not JumpA/Exit,
or (c) an in-use jump target is recorded at the current position; an
unreachable instruction is dropped and every label recorded at that
position is removed from both label maps; in particular after
[Exit, label "X", Mov64(R0,R0)] with nothing jumping to "X" the Mov64 is
absent from the output and "X" is dropped. -/
theorem C5_reachability :
    (∀ b : Block,
      nextInsnReachable b = true ↔
        b.insns = [] ∨
        (∃ n, b.insns.getLast? = some n ∧
          ¬(n.opCode = JumpA ∨ n.opCode = Exit)) ∨
        (∃ l, l ∈ labelsAt b.insnIdxToLabels b.insns.length ∧
          l ∈ b.inUseJumpTargets)) ∧
    (∀ (b : Block) (insn : Insn) (lbl : String),
      (nextInsnReachable b = true →
        (b.addInsnWithOffsetFixupNoTrampoline insn lbl).insns =
          b.insns ++ [if b.policyDebugEnabled ∧ lbl ≠ "" then
            { insn with annot := "goto " ++ lbl } else insn]) ∧
      (nextInsnReachable b = false →
        (b.addInsnWithOffsetFixupNoTrampoline insn lbl).insns = b.insns ∧
        (∀ l ∈ labelsAt b.insnIdxToLabels b.insns.length,
          lookupA (b.addInsnWithOffsetFixupNoTrampoline insn
            lbl).labelToInsnIdx l = none) ∧
        lookupA (b.addInsnWithOffsetFixupNoTrampoline insn
          lbl).insnIdxToLabels b.insns.length = none)) ∧
    (((NewBlock false).runOps [.exitOp, .labelOp "X", .mov64 0 0]).insns =
        [MakeInsn Exit 0 0 0 0] ∧
      lookupA ((NewBlock false).runOps
        [.exitOp, .labelOp "X", .mov64 0 0]).labelToInsnIdx "X" = none) := by
  refine ⟨?_, ?_, by decide, by decide⟩
  · intro b
    cases hl : b.insns.getLast? with
    | none =>
      have h0 : b.insns = [] := by
        simpa [List.getLast?_eq_none_iff] using hl
      rw [nextInsnReachable_of_nil b h0]
      simp [h0]
    | some n =>
      rw [nextInsnReachable_some b n hl]
      have hne : b.insns ≠ [] := by
        intro hc
        rw [hc] at hl
        exact absurd hl (by simp)
      by_cases h5 : n.opCode = JumpA ∨ n.opCode = Exit
      · rw [if_pos h5]
        constructor
        · intro h
          refine Or.inr (Or.inr ?_)
          rw [List.any_eq_true] at h
          obtain ⟨l, hmem, hc⟩ := h
          exact ⟨l, hmem, List.elem_iff.mp hc⟩
        · intro h
          rcases h with h | ⟨m, hm, hm5⟩ | ⟨l, hmem, hin⟩
          · exact absurd h hne
          · cases hm
            exact absurd h5 hm5
          · rw [List.any_eq_true]
            exact ⟨l, hmem, List.elem_iff.mpr hin⟩
      · rw [if_neg h5]
        simp only [true_iff]
        exact Or.inr (Or.inl ⟨n, rfl, h5⟩)
  · intro b insn lbl
    constructor
    · intro hr
      exact addNoTramp_insns_reachable b insn lbl hr
    · intro hr
      rw [addNoTramp_unreachable b insn lbl hr]
      refine ⟨rfl, ?_, lookupA_removeA_self _ _⟩
      intro l hmem
      exact lookupA_foldl_removeA_mem _ _ _ hmem

/-- C5 witness: the reachability characterisation applied to the empty
block, whose next instruction is reachable. -/
theorem C5_reachability_w : nextInsnReachable (NewBlock false) = true :=
  (C5_reachability.1 (NewBlock false)).mpr (Or.inl rfl)

/-! ### Trampoline-check lemmas -/

theorem maybeWT_disabled (b : Block) (insn : Insn)
    (h : b.trampolinesEnabled = false) : b.maybeWriteTrampoline insn = b := by
  unfold Block.maybeWriteTrampoline
  rw [if_pos h]

theorem maybeWT_near (b : Block) (insn : Insn)
    (h : (b.insns.length : Int) - (b.lastTrampolineAddr : Int) <
      b.trampolineStride) : b.maybeWriteTrampoline insn = b := by
  unfold Block.maybeWriteTrampoline
  by_cases h1 : b.trampolinesEnabled = false
  · rw [if_pos h1]
  · rw [if_neg h1, if_pos h]

theorem maybeWT_pt2 (b : Block) (insn : Insn)
    (h : insn.opCode = LoadImm64Pt2) : b.maybeWriteTrampoline insn = b := by
  unfold Block.maybeWriteTrampoline
  by_cases h1 : b.trampolinesEnabled = false
  · rw [if_pos h1]
  · by_cases h2 : (b.insns.length : Int) - (b.lastTrampolineAddr : Int) <
        b.trampolineStride
    · rw [if_neg h1, if_pos h2]
    · rw [if_neg h1, if_neg h2, if_pos h]

theorem maybeWT_fires (b : Block) (insn : Insn)
    (h1 : b.trampolinesEnabled = true)
    (h2 : ¬((b.insns.length : Int) - (b.lastTrampolineAddr : Int) <
      b.trampolineStride))
    (h3 : insn.opCode ≠ LoadImm64Pt2) :
    b.maybeWriteTrampoline insn = b.writeTrampoline := by
  unfold Block.maybeWriteTrampoline
  rw [if_neg (by simp [h1]), if_neg h2, if_neg h3]

theorem addNoTramp_insns_reachable_empty (b : Block) (insn : Insn)
    (hr : nextInsnReachable b = true) :
    (b.addInsnWithOffsetFixupNoTrampoline insn "").insns =
      b.insns ++ [insn] := by
  rw [addNoTramp_insns_reachable b insn "" hr]
  simp

theorem getLast?_append_singleton {α : Type} (l : List α) (a : α) :
    (l ++ [a]).getLast? = some a := by
  simp

theorem nextInsnReachable_false_elim (b : Block)
    (hr : nextInsnReachable b = false) :
    ∃ n, b.insns.getLast? = some n ∧
      (n.opCode = JumpA ∨ n.opCode = Exit) ∧
      (labelsAt b.insnIdxToLabels b.insns.length).any
        (fun l => b.inUseJumpTargets.contains l) = false := by
  cases hl : b.insns.getLast? with
  | none =>
    rw [nextInsnReachable_of_nil b
      (by simpa [List.getLast?_eq_none_iff] using hl)] at hr
    exact absurd hr (by simp)
  | some n =>
    rw [nextInsnReachable_some b n hl] at hr
    by_cases h5 : n.opCode = JumpA ∨ n.opCode = Exit
    · rw [if_pos h5] at hr
      exact ⟨n, rfl, h5, hr⟩
    · rw [if_neg h5] at hr
      exact absurd hr (by simp)

theorem addTwoHalves_atomic (bT : Block) (i1 i2 : Insn)
    (h2pt : i2.opCode = LoadImm64Pt2)
    (h1op : ¬(i1.opCode = JumpA ∨ i1.opCode = Exit)) :
    (((bT.addInsnWithOffsetFixupNoTrampoline i1 "").maybeWriteTrampoline
        i2).addInsnWithOffsetFixupNoTrampoline i2 "").insns =
      bT.insns ++ [i1, i2] ∨
    (((bT.addInsnWithOffsetFixupNoTrampoline i1 "").maybeWriteTrampoline
        i2).addInsnWithOffsetFixupNoTrampoline i2 "").insns = bT.insns := by
  rw [maybeWT_pt2 _ i2 h2pt]
  cases hr : nextInsnReachable bT with
  | true =>
    left
    have h1ins : (bT.addInsnWithOffsetFixupNoTrampoline i1 "").insns =
        bT.insns ++ [i1] := addNoTramp_insns_reachable_empty bT i1 hr
    have hlast : (bT.addInsnWithOffsetFixupNoTrampoline i1 "").insns.getLast?
        = some i1 := by
      rw [h1ins]
      exact getLast?_append_singleton _ _
    have hreach1 : nextInsnReachable
        (bT.addInsnWithOffsetFixupNoTrampoline i1 "") = true :=
      nextInsnReachable_of_last _ i1 hlast h1op
    rw [addNoTramp_insns_reachable_empty _ i2 hreach1, h1ins,
      List.append_assoc]
    rfl
  | false =>
    right
    have h1eq := addNoTramp_unreachable bT i1 "" hr
    have h1ins : (bT.addInsnWithOffsetFixupNoTrampoline i1 "").insns =
        bT.insns := by rw [h1eq]
    have hreach1 : nextInsnReachable
        (bT.addInsnWithOffsetFixupNoTrampoline i1 "") = false := by
      obtain ⟨n, hln, h5, hany⟩ := nextInsnReachable_false_elim bT hr
      have hlast : (bT.addInsnWithOffsetFixupNoTrampoline
          i1 "").insns.getLast? = some n := by rw [h1ins]; exact hln
      rw [nextInsnReachable_some _ n hlast, if_pos h5]
      have hemp : labelsAt
          (bT.addInsnWithOffsetFixupNoTrampoline i1 "").insnIdxToLabels
          (bT.addInsnWithOffsetFixupNoTrampoline i1 "").insns.length = [] := by
        rw [h1eq]
        show labelsAt (removeA bT.insnIdxToLabels bT.insns.length)
          bT.insns.length = []
        unfold labelsAt
        rw [lookupA_removeA_self]
      rw [hemp]
      rfl
    rw [addNoTramp_unreachable _ i2 "" hreach1]
    show (bT.addInsnWithOffsetFixupNoTrampoline i1 "").insns = bT.insns
    exact h1ins

/-- C4: the two halves of `LoadImm64` are never split: `loadImm64` either
appends both halves adjacently right after whatever
`maybeWriteTrampoline` produced for the first half, or (when the position
is unreachable) appends neither; the continuation half always carries the
reserved opcode 0, so no trampoline check can fire between the halves. -/
theorem C4_loadImm64_atomic (b : Block) (dst imm : Int) :
    ((b.loadImm64 dst imm).insns =
        (b.maybeWriteTrampoline (MakeInsn LoadImm64 dst 0 0 imm)).insns ++
          [MakeInsn LoadImm64 dst 0 0 imm,
           MakeInsn LoadImm64Pt2 0 0 0 (Int.fdiv imm 4294967296)] ∨
      (b.loadImm64 dst imm).insns =
        (b.maybeWriteTrampoline (MakeInsn LoadImm64 dst 0 0 imm)).insns) ∧
    (MakeInsn LoadImm64Pt2 0 0 0 (Int.fdiv imm 4294967296)).opCode =
      LoadImm64Pt2 := by
  have hid1 : ({ MakeInsn LoadImm64 dst 0 0 imm with annot := "" } : Insn) =
      MakeInsn LoadImm64 dst 0 0 imm := rfl
  have hid2 : ({ MakeInsn LoadImm64Pt2 0 0 0 (Int.fdiv imm 4294967296) with
      annot := "" } : Insn) =
      MakeInsn LoadImm64Pt2 0 0 0 (Int.fdiv imm 4294967296) := rfl
  refine ⟨?_, rfl⟩
  unfold Block.loadImm64 Block.add Block.addInsn Block.addInsnWithOffsetFixup
  rw [hid1, hid2]
  exact addTwoHalves_atomic (b.maybeWriteTrampoline
      (MakeInsn LoadImm64 dst 0 0 imm))
    (MakeInsn LoadImm64 dst 0 0 imm)
    (MakeInsn LoadImm64Pt2 0 0 0 (Int.fdiv imm 4294967296)) rfl
    (by rw [show (MakeInsn LoadImm64 dst 0 0 imm).opCode = 24 from rfl]
        decide)

/-! ### Deferred-error latching -/

theorem applyFixUpsB_deferred (b : Block) (L : String) :
    (b.applyFixUpsB L).1.deferredErr = b.deferredErr := by
  unfold Block.applyFixUpsB
  split <;> rfl

theorem labelNextInsn_deferred_some (b : Block) (L : String) (e : AsmErr)
    (h : b.deferredErr = some e) :
    (b.labelNextInsn L).deferredErr = some e := by
  simp only [Block.labelNextInsn]
  split
  next b2 heq =>
    have : (Prod.fst (b2, (none : Option AsmErr))).deferredErr =
        b.deferredErr := by
      rw [← heq]
      exact applyFixUpsB_deferred _ L
    rw [show b2.deferredErr = b.deferredErr from this, h]
  next b2 e' heq =>
    have hb2 : b2.deferredErr = some e := by
      have : (Prod.fst (b2, some e')).deferredErr = b.deferredErr := by
        rw [← heq]
        exact applyFixUpsB_deferred _ L
      rw [show b2.deferredErr = b.deferredErr from this, h]
    rw [if_neg (by rw [hb2]; exact fun hc => Option.noConfusion hc)]
    exact hb2

theorem addNoTramp_deferred (b : Block) (insn : Insn) (lbl : String) :
    (b.addInsnWithOffsetFixupNoTrampoline insn lbl).deferredErr =
      b.deferredErr := by
  unfold Block.addInsnWithOffsetFixupNoTrampoline
  split
  · rfl
  · split <;> split <;> split <;> rfl

theorem jumpNoTramp_deferred (b : Block) (l : String) :
    (b.jumpNoTrampoline l).deferredErr = b.deferredErr :=
  addNoTramp_deferred b _ l

theorem foldRelay_deferred_some (ls : List String) (b : Block) (e : AsmErr)
    (h : b.deferredErr = some e) :
    (ls.foldl (fun bb l => (bb.labelNextInsn l).jumpNoTrampoline l)
      b).deferredErr = some e := by
  induction ls generalizing b with
  | nil => exact h
  | cons x rest ih =>
    apply ih
    rw [jumpNoTramp_deferred]
    exact labelNextInsn_deferred_some _ x e h

theorem writeTrampolineWith_deferred_some (b : Block) (order : List String)
    (e : AsmErr) (h : b.deferredErr = some e) :
    (b.writeTrampolineWith order).deferredErr = some e := by
  simp only [Block.writeTrampolineWith]
  split
  · exact h
  · apply labelNextInsn_deferred_some
    apply foldRelay_deferred_some
    rw [jumpNoTramp_deferred]
    exact h

theorem maybeWT_deferred_some (b : Block) (insn : Insn) (e : AsmErr)
    (h : b.deferredErr = some e) :
    (b.maybeWriteTrampoline insn).deferredErr = some e := by
  unfold Block.maybeWriteTrampoline
  by_cases h1 : b.trampolinesEnabled = false
  · rw [if_pos h1]
    exact h
  · rw [if_neg h1]
    by_cases h2 : (b.insns.length : Int) - (b.lastTrampolineAddr : Int) <
        b.trampolineStride
    · rw [if_pos h2]
      exact h
    · rw [if_neg h2]
      by_cases h3 : insn.opCode = LoadImm64Pt2
      · rw [if_pos h3]
        exact h
      · rw [if_neg h3]
        exact writeTrampolineWith_deferred_some _ _ e h

theorem addInsnWithOffsetFixup_deferred_some (b : Block) (insn : Insn)
    (lbl : String) (e : AsmErr) (h : b.deferredErr = some e) :
    (b.addInsnWithOffsetFixup insn lbl).deferredErr = some e := by
  unfold Block.addInsnWithOffsetFixup
  rw [addNoTramp_deferred]
  exact maybeWT_deferred_some b insn e h

theorem add_deferred_some (b : Block) (opcode : Nat) (dst src : Int)
    (offset imm : Int) ( annotation : String) (e : AsmErr)
    (h : b.deferredErr = some e) :
    (b.add opcode dst src offset imm annotation).deferredErr = some e :=
  addInsnWithOffsetFixup_deferred_some b _ "" e h

/-- C7: builder calls never fail outwardly and never overwrite an
already-latched deferred error; `Assemble()` returns exactly the latched
first error (with no program, since the error constructor carries no
instruction sequence), and a successful `Assemble()` implies no deferred
error was ever latched. -/
theorem C7_deferred_error_policy :
    (∀ (b : Block) (op : BuilderOp) (e : AsmErr), b.deferredErr = some e →
      (b.applyOp op).deferredErr = some e) ∧
    (∀ (b : Block) (e : AsmErr), b.deferredErr = some e →
      b.assemble = .error e) ∧
    (∀ (b : Block) (insns : List Insn), b.assemble = .ok insns →
      b.deferredErr = none) := by
  refine ⟨?_, ?_, ?_⟩
  · intro b op e h
    cases op with
    | mov64 dst src => exact add_deferred_some b Mov64 dst src 0 0 "" e h
    | movImm64 dst imm =>
      exact add_deferred_some b MovImm64 dst 0 0 imm "" e h
    | loadImm64 dst imm =>
      exact add_deferred_some _ LoadImm64Pt2 0 0 0
        (Int.fdiv imm 4294967296) "" e
        (add_deferred_some b LoadImm64 dst 0 0 imm "" e h)
    | jump label =>
      exact addInsnWithOffsetFixup_deferred_some b
        (MakeInsn JumpA 0 0 0 0) label e h
    | jumpEq64 ra rb label =>
      exact addInsnWithOffsetFixup_deferred_some b
        (MakeInsn JumpEq64 ra rb 0 0) label e h
    | exitOp => exact add_deferred_some b Exit 0 0 0 0 "" e h
    | labelOp label => exact labelNextInsn_deferred_some b _ e h
    | commentOp comment =>
      show (b.addComment comment).deferredErr = some e
      unfold Block.addComment
      split
      · exact h
      · exact h
    | setTrampolinesEnabled en => exact h
    | setTrampolineStride s =>
      show (b.setTrampolineStride s).deferredErr = some e
      unfold Block.setTrampolineStride
      split
      · exact h
      · exact h
  · intro b e h
    unfold Block.assemble
    rw [h]
  · intro b insns h
    cases hd : b.deferredErr with
    | none => rfl
    | some e =>
      unfold Block.assemble at h
      rw [hd] at h
      exact absurd h (by simp)

/-- C7 witness: a block with a latched error keeps it across a further
builder call, and `Assemble()` returns exactly it. -/
theorem C7_deferred_error_policy_w :
    (({ NewBlock false with
        deferredErr := some (.missingLabel "Z") } : Block).applyOp
      .exitOp).deferredErr = some (.missingLabel "Z") ∧
    ({ NewBlock false with
        deferredErr := some (.missingLabel "Z") } : Block).assemble =
      .error (.missingLabel "Z") :=
  ⟨C7_deferred_error_policy.1 _ .exitOp _ rfl,
   C7_deferred_error_policy.2.1 _ _ rfl⟩

/-! ### Determinism of the trampoline writer -/

/-- C6: the trampoline writer sorts the outstanding-fixup labels, so its
result does not depend on the (nondeterministic) Go map iteration order:
any two iteration orders that enumerate the outstanding key set produce
bit-for-bit identical blocks, making assembly deterministic. -/
theorem C6_trampoline_determinism (b : Block) (p1 p2 : List String)
    (h1 : List.Perm p1 (keysOf b.fixUps))
    (h2 : List.Perm p2 (keysOf b.fixUps)) :
    b.writeTrampolineWith p1 = b.writeTrampolineWith p2 := by
  have hsort : List.insertionSort (fun a c => a ≤ c) p1 =
      List.insertionSort (fun a c => a ≤ c) p2 := by
    haveI : IsAntisymm String (fun a c : String => a ≤ c) :=
      ⟨fun a c hac hca => le_antisymm hac hca⟩
    haveI : IsTotal String (fun a c : String => a ≤ c) :=
      ⟨fun a c => le_total a c⟩
    haveI : IsTrans String (fun a c : String => a ≤ c) :=
      ⟨fun a c d hac hcd => le_trans hac hcd⟩
    exact @List.eq_of_perm_of_sorted String (fun a c : String => a ≤ c)
      ⟨fun a c hac hca => le_antisymm hac hca⟩ _ _
      ((List.perm_insertionSort _ p1).trans
        (h1.trans (h2.symm.trans (List.perm_insertionSort _ p2).symm)))
      (List.sorted_insertionSort _ p1)
      (List.sorted_insertionSort _ p2)
  simp only [Block.writeTrampolineWith]
  rw [hsort]

/-- C6 witness: two opposite map iteration orders over two outstanding
labels yield the same trampoline block. -/
theorem C6_trampoline_determinism_w :
    ((NewBlock false).runOps
        [.jumpEq64 1 2 "b", .jumpEq64 1 2 "a"]).writeTrampolineWith
      ["b", "a"] =
    ((NewBlock false).runOps
        [.jumpEq64 1 2 "b", .jumpEq64 1 2 "a"]).writeTrampolineWith
      ["a", "b"] :=
  C6_trampoline_determinism _ ["b", "a"] ["a", "b"] (by decide) (by decide)

/-! ### The final resolution pass of Assemble -/

theorem applyFixUpsB_labelToInsnIdx (b : Block) (L : String) :
    (b.applyFixUpsB L).1.labelToInsnIdx = b.labelToInsnIdx := by
  unfold Block.applyFixUpsB
  split <;> rfl

theorem filter_removeA_other (m : List (String × Nat)) (L L' : String)
    (h : L' ≠ L) :
    (removeA m L).filter (fun p => p.1 = L') =
      m.filter (fun p => p.1 = L') := by
  induction m with
  | nil => rfl
  | cons p rest ih =>
    obtain ⟨k, v⟩ := p
    unfold removeA
    by_cases hk : k = L
    · rw [if_pos hk, ih]
      have hkL : decide ((k, v).1 = L') = false := by
        subst hk
        exact decide_eq_false (fun hc => h hc.symm)
      rw [List.filter_cons, hkL]
      simp
    · rw [if_neg hk]
      rw [List.filter_cons, List.filter_cons, ih]

theorem applyFixUpsB_fixupsFor_other (b : Block) (L L' : String)
    (h : L' ≠ L) :
    fixupsFor (b.applyFixUpsB L).1 L' = fixupsFor b L' := by
  unfold Block.applyFixUpsB
  split
  next insns' heq =>
    show fixupsFor
      ({ b with insns := insns', fixUps := removeA b.fixUps L }) L' =
      fixupsFor b L'
    unfold fixupsFor
    show ((removeA b.fixUps L).filter (fun p => p.1 = L')).map Prod.snd = _
    rw [filter_removeA_other b.fixUps L L' h]
  next insns' e heq => rfl

theorem applyFixUpsB_unbound (b : Block) (L : String)
    (hub : lookupA b.labelToInsnIdx L = none)
    (hne : fixupsFor b L ≠ []) :
    (b.applyFixUpsB L).2 = some (.missingLabel L) := by
  unfold Block.applyFixUpsB
  cases hf : fixupsFor b L with
  | nil => exact absurd hf hne
  | cons i rest =>
    rw [hub]
    rfl

theorem assembleLoop_error (ls : List String) (b : Block) (L : String)
    (hmem : L ∈ ls) (hub : lookupA b.labelToInsnIdx L = none)
    (hne : fixupsFor b L ≠ []) :
    ∃ e, assembleLoop ls b = .error e := by
  induction ls generalizing b with
  | nil => cases hmem
  | cons x rest ih =>
    unfold assembleLoop
    cases hx : b.applyFixUpsB x with
    | mk b' r =>
      cases r with
      | some e2 => exact ⟨e2, rfl⟩
      | none =>
        by_cases hxL : x = L
        · subst hxL
          have hother := applyFixUpsB_unbound b x hub hne
          rw [hx] at hother
          exact absurd hother (by simp)
        · have hmem' : L ∈ rest := by
            cases hmem with
            | head => exact absurd rfl (fun hc => hxL hc.symm)
            | tail _ hter => exact hter
          have hub' : lookupA b'.labelToInsnIdx L = none := by
            have := applyFixUpsB_labelToInsnIdx b x
            rw [hx] at this
            show lookupA b'.labelToInsnIdx L = none
            rw [show b'.labelToInsnIdx = b.labelToInsnIdx from this]
            exact hub
          have hne' : fixupsFor b' L ≠ [] := by
            have := applyFixUpsB_fixupsFor_other b x L
              (fun hc => hxL hc.symm)
            rw [hx] at this
            show fixupsFor b' L ≠ []
            rw [show fixupsFor b' L = fixupsFor b L from this]
            exact hne
          obtain ⟨e, he⟩ := ih b' hmem' hub' hne'
          exact ⟨e, he⟩

theorem fixupsFor_ne_nil_of_mem (b : Block) (L : String)
    (hmem : L ∈ b.fixUps.map Prod.fst) : fixupsFor b L ≠ [] := by
  obtain ⟨p, hp, hfst⟩ := List.mem_map.mp hmem
  have hpf : p ∈ b.fixUps.filter (fun q => q.1 = L) := by
    rw [List.mem_filter]
    exact ⟨hp, by rw [hfst]; exact decide_eq_true rfl⟩
  exact List.ne_nil_of_mem (List.mem_map.mpr ⟨p, hpf, rfl⟩)

/-- C8 counterexample: a backward jump registered after its label was
bound leaves a non-empty outstanding fixup entry at `Assemble()` time,
yet the final resolution pass resolves it and assembly succeeds — so a
non-empty entry is not necessarily an unbound-label error and the
success path does not require the fixup map to be empty. -/
theorem C8_final_resolution_cx :
    ((NewBlock false).runOps
        [.labelOp "X", .mov64 0 0, .mov64 0 0, .jump "X"]).fixUps =
      [("X", 2)] ∧
    asmOk ((NewBlock false).runOps
        [.labelOp "X", .mov64 0 0, .mov64 0 0, .jump "X"]).assemble =
      true := by
  constructor
  · decide
  · decide

/-- The final-resolution loop on a non-empty key list of all-unbound
labels fails at its first key with that key's unbound-label error. -/
theorem assembleLoop_missing (ls : List String) (b : Block)
    (hub : ∀ l ∈ ls, lookupA b.labelToInsnIdx l = none)
    (hne : ∀ l ∈ ls, fixupsFor b l ≠ [])
    (hcons : ls ≠ []) :
    ∃ l, l ∈ ls ∧ assembleLoop ls b = .error (.missingLabel l) := by
  cases ls with
  | nil => exact absurd rfl hcons
  | cons x rest =>
    refine ⟨x, List.mem_cons_self x rest, ?_⟩
    unfold assembleLoop
    cases hx : b.applyFixUpsB x with
    | mk b' r =>
      have h2 := applyFixUpsB_unbound b x (hub x (List.mem_cons_self x rest))
        (hne x (List.mem_cons_self x rest))
      rw [hx] at h2
      cases r with
      | none => exact absurd h2 (by simp)
      | some e2 =>
        have he2 : some e2 = some (AsmErr.missingLabel x) := h2
        rw [Option.some.inj he2]

/-- C8 (amended): with no deferred error latched, `Assemble()` performs a
final resolution pass over all still-outstanding fixups; an outstanding
entry whose label is unbound makes assembly fail, and when every
outstanding label is unbound the reported error is the unbound-label
error `missingLabel l` for one of the outstanding labels `l`; outstanding
entries with bound labels — backward references — are resolved by the
pass itself, so the success path does not require the fixup map to be
empty. -/
theorem C8_final_resolution (b : Block) (L : String)
    (hd : b.deferredErr = none) (hmem : L ∈ b.fixUps.map Prod.fst)
    (hub : lookupA b.labelToInsnIdx L = none) :
    (∃ e, b.assemble = .error e) ∧
    ((∀ l ∈ b.fixUps.map Prod.fst, lookupA b.labelToInsnIdx l = none) →
      ∃ l, l ∈ b.fixUps.map Prod.fst ∧
        b.assemble = .error (.missingLabel l)) := by
  constructor
  · have hne := fixupsFor_ne_nil_of_mem b L hmem
    have hmemKeys : L ∈ keysOf b.fixUps := by
      unfold keysOf
      exact List.mem_dedup.mpr hmem
    obtain ⟨e, he⟩ := assembleLoop_error (keysOf b.fixUps) b L hmemKeys
      hub hne
    refine ⟨e, ?_⟩
    unfold Block.assemble
    rw [hd, he]
  · intro hall
    have hkeys_ne : keysOf b.fixUps ≠ [] := by
      unfold keysOf
      intro hc
      rw [List.dedup_eq_nil] at hc
      rw [hc] at hmem
      cases hmem
    have hub2 : ∀ l ∈ keysOf b.fixUps,
        lookupA b.labelToInsnIdx l = none := by
      intro l hl
      exact hall l (List.mem_dedup.mp hl)
    have hne2 : ∀ l ∈ keysOf b.fixUps, fixupsFor b l ≠ [] := by
      intro l hl
      exact fixupsFor_ne_nil_of_mem b l (List.mem_dedup.mp hl)
    obtain ⟨l, hlmem, he⟩ := assembleLoop_missing (keysOf b.fixUps) b
      hub2 hne2 hkeys_ne
    refine ⟨l, List.mem_dedup.mp hlmem, ?_⟩
    unfold Block.assemble
    rw [hd, he]

/-- C8 witness: one registered jump to a never-bound label makes the
final resolution pass fail, and the reported error is that label's
unbound-label error. -/
theorem C8_final_resolution_w :
    (∃ e, ((NewBlock false).runOps [.jumpEq64 1 2 "Z"]).assemble =
      .error e) ∧
    (∃ l, l ∈ ((NewBlock false).runOps
        [.jumpEq64 1 2 "Z"]).fixUps.map Prod.fst ∧
      ((NewBlock false).runOps [.jumpEq64 1 2 "Z"]).assemble =
        .error (.missingLabel l)) := by
  obtain ⟨h1, h2⟩ := C8_final_resolution
    ((NewBlock false).runOps [.jumpEq64 1 2 "Z"]) "Z" rfl (by decide) rfl
  exact ⟨h1, h2 (by decide)⟩

/-! ### Builder-run lemmas for the synthetic trampoline programs -/

theorem runOps_append (b : Block) (ops1 ops2 : List BuilderOp) :
    b.runOps (ops1 ++ ops2) = (b.runOps ops1).runOps ops2 :=
  List.foldl_append Block.applyOp b ops1 ops2

theorem runOps_cons (b : Block) (op : BuilderOp) (ops : List BuilderOp) :
    b.runOps (op :: ops) = (b.applyOp op).runOps ops := rfl

theorem addNoTramp_flat (b : Block) (insn : Insn) (lbl : String)
    (hr : nextInsnReachable b = true) :
    b.addInsnWithOffsetFixupNoTrampoline insn lbl =
      (if insn.opClass = OpClassJump64 ∨ insn.opClass = OpClassJump32 then
        if lbl = "" then
          { b with
            insns := b.insns ++ [if b.policyDebugEnabled ∧ lbl ≠ "" then
              { insn with annot := "goto " ++ lbl } else insn]
            numJumps := b.numJumps + 1 }
        else
          { b with
            insns := b.insns ++ [if b.policyDebugEnabled ∧ lbl ≠ "" then
              { insn with annot := "goto " ++ lbl } else insn]
            inUseJumpTargets := setAdd b.inUseJumpTargets lbl
            fixUps := b.fixUps ++ [(lbl, b.insns.length)]
            numJumps := b.numJumps + 1 }
      else
        if lbl = "" then
          { b with
            insns := b.insns ++ [if b.policyDebugEnabled ∧ lbl ≠ "" then
              { insn with annot := "goto " ++ lbl } else insn] }
        else
          { b with
            insns := b.insns ++ [if b.policyDebugEnabled ∧ lbl ≠ "" then
              { insn with annot := "goto " ++ lbl } else insn]
            inUseJumpTargets := setAdd b.inUseJumpTargets lbl
            fixUps := b.fixUps ++ [(lbl, b.insns.length)] }) := by
  unfold Block.addInsnWithOffsetFixupNoTrampoline
  rw [if_neg (by simp [hr])]
  split <;> split <;> rfl

theorem opClass_makeInsn (opcode : Nat) (d sr o i : Int) :
    (MakeInsn opcode d sr o i).opClass = (opcode % 256) &&& OpClassMask := by
  show ((opcode % 256) &&& OpClassMask) = (opcode % 256) &&& OpClassMask
  rfl

theorem mov64_step_disabled (b : Block) (d s : Int)
    (hdis : b.trampolinesEnabled = false)
    (hr : nextInsnReachable b = true) :
    b.mov64 d s = { b with insns := b.insns ++ [MakeInsn Mov64 d s 0 0] } := by
  have hid : ({ MakeInsn Mov64 d s 0 0 with annot := "" } : Insn) =
      MakeInsn Mov64 d s 0 0 := rfl
  unfold Block.mov64 Block.add Block.addInsn Block.addInsnWithOffsetFixup
  rw [hid, maybeWT_disabled b _ hdis, addNoTramp_flat b _ "" hr]
  rw [if_neg (show ¬((MakeInsn Mov64 d s 0 0).opClass = OpClassJump64 ∨
      (MakeInsn Mov64 d s 0 0).opClass = OpClassJump32) from by
    rw [opClass_makeInsn]
    decide)]
  rw [if_pos rfl, if_neg (fun hc => hc.2 rfl)]

theorem mov64_step_near (b : Block) (d s : Int)
    (hnear : (b.insns.length : Int) - (b.lastTrampolineAddr : Int) <
      b.trampolineStride)
    (hr : nextInsnReachable b = true) :
    b.mov64 d s = { b with insns := b.insns ++ [MakeInsn Mov64 d s 0 0] } := by
  have hid : ({ MakeInsn Mov64 d s 0 0 with annot := "" } : Insn) =
      MakeInsn Mov64 d s 0 0 := rfl
  unfold Block.mov64 Block.add Block.addInsn Block.addInsnWithOffsetFixup
  rw [hid, maybeWT_near b _ hnear, addNoTramp_flat b _ "" hr]
  rw [if_neg (show ¬((MakeInsn Mov64 d s 0 0).opClass = OpClassJump64 ∨
      (MakeInsn Mov64 d s 0 0).opClass = OpClassJump32) from by
    rw [opClass_makeInsn]
    decide)]
  rw [if_pos rfl, if_neg (fun hc => hc.2 rfl)]

theorem exit_step_disabled (b : Block)
    (hdis : b.trampolinesEnabled = false)
    (hr : nextInsnReachable b = true) :
    b.exitInsn = { b with
      insns := b.insns ++ [MakeInsn Exit 0 0 0 0]
      numJumps := b.numJumps + 1 } := by
  have hid : ({ MakeInsn Exit 0 0 0 0 with annot := "" } : Insn) =
      MakeInsn Exit 0 0 0 0 := rfl
  unfold Block.exitInsn Block.add Block.addInsn Block.addInsnWithOffsetFixup
  rw [hid, maybeWT_disabled b _ hdis, addNoTramp_flat b _ "" hr]
  rw [if_pos (show (MakeInsn Exit 0 0 0 0).opClass = OpClassJump64 ∨
      (MakeInsn Exit 0 0 0 0).opClass = OpClassJump32 from by
    rw [opClass_makeInsn]
    decide)]
  rw [if_pos rfl, if_neg (fun hc => hc.2 rfl)]

theorem exit_step_near (b : Block)
    (hnear : (b.insns.length : Int) - (b.lastTrampolineAddr : Int) <
      b.trampolineStride)
    (hr : nextInsnReachable b = true) :
    b.exitInsn = { b with
      insns := b.insns ++ [MakeInsn Exit 0 0 0 0]
      numJumps := b.numJumps + 1 } := by
  have hid : ({ MakeInsn Exit 0 0 0 0 with annot := "" } : Insn) =
      MakeInsn Exit 0 0 0 0 := rfl
  unfold Block.exitInsn Block.add Block.addInsn Block.addInsnWithOffsetFixup
  rw [hid, maybeWT_near b _ hnear, addNoTramp_flat b _ "" hr]
  rw [if_pos (show (MakeInsn Exit 0 0 0 0).opClass = OpClassJump64 ∨
      (MakeInsn Exit 0 0 0 0).opClass = OpClassJump32 from by
    rw [opClass_makeInsn]
    decide)]
  rw [if_pos rfl, if_neg (fun hc => hc.2 rfl)]

theorem jumpEq64_step_near (b : Block) (ra rb : Int) (L : String)
    (hdbg : b.policyDebugEnabled = false) (hL : ¬(L = ""))
    (hnear : (b.insns.length : Int) - (b.lastTrampolineAddr : Int) <
      b.trampolineStride)
    (hr : nextInsnReachable b = true) :
    b.jumpEq64 ra rb L =
      { b with
        insns := b.insns ++ [MakeInsn JumpEq64 ra rb 0 0]
        inUseJumpTargets := setAdd b.inUseJumpTargets L
        fixUps := b.fixUps ++ [(L, b.insns.length)]
        numJumps := b.numJumps + 1 } := by
  unfold Block.jumpEq64 Block.addWithOffsetFixup Block.addInsnWithOffsetFixup
  rw [maybeWT_near b _ hnear, addNoTramp_flat b _ L hr]
  rw [if_pos (show (MakeInsn JumpEq64 ra rb 0 0).opClass = OpClassJump64 ∨
      (MakeInsn JumpEq64 ra rb 0 0).opClass = OpClassJump32 from by
    rw [opClass_makeInsn]
    decide)]
  rw [if_neg hL, if_neg (show ¬(b.policyDebugEnabled = true ∧ L ≠ "")
    from fun hc => by rw [hdbg] at hc; exact Bool.noConfusion hc.1)]

theorem jumpNoTramp_step (b : Block) (L : String)
    (hdbg : b.policyDebugEnabled = false) (hL : ¬(L = ""))
    (hr : nextInsnReachable b = true) :
    b.jumpNoTrampoline L =
      { b with
        insns := b.insns ++ [MakeInsn JumpA 0 0 0 0]
        inUseJumpTargets := setAdd b.inUseJumpTargets L
        fixUps := b.fixUps ++ [(L, b.insns.length)]
        numJumps := b.numJumps + 1 } := by
  unfold Block.jumpNoTrampoline
  rw [addNoTramp_flat b _ L hr]
  rw [if_pos (show (MakeInsn JumpA 0 0 0 0).opClass = OpClassJump64 ∨
      (MakeInsn JumpA 0 0 0 0).opClass = OpClassJump32 from by
    rw [opClass_makeInsn]
    decide)]
  rw [if_neg hL, if_neg (show ¬(b.policyDebugEnabled = true ∧ L ≠ "")
    from fun hc => by rw [hdbg] at hc; exact Bool.noConfusion hc.1)]

theorem getLast?_replicate_succ {α : Type} (k : Nat) (a : α) :
    (List.replicate (k + 1) a).getLast? = some a := by
  rw [List.replicate_succ']
  exact getLast?_append_singleton _ _

theorem getLast?_cons_replicate {α : Type} (x a : α) (k : Nat)
    (hk : 0 < k) :
    (x :: List.replicate k a).getLast? = some a := by
  obtain ⟨n, rfl⟩ : ∃ n, k = n + 1 := ⟨k - 1, by omega⟩
  rw [List.replicate_succ']
  rw [show x :: (List.replicate n a ++ [a]) =
    (x :: List.replicate n a) ++ [a] from rfl]
  exact getLast?_append_singleton _ _

theorem movInsn_not_terminal :
    ¬(movInsn.opCode = JumpA ∨ movInsn.opCode = Exit) := by decide

theorem mov64_run_disabled (k : Nat) (b : Block)
    (hdis : b.trampolinesEnabled = false)
    (hlast : ∃ n, b.insns.getLast? = some n ∧
      ¬(n.opCode = JumpA ∨ n.opCode = Exit)) :
    b.runOps (List.replicate k (.mov64 1 2)) =
      { b with insns := b.insns ++ List.replicate k movInsn } := by
  induction k generalizing b with
  | zero =>
    show b = _
    rw [List.replicate, List.append_nil]
  | succ k ih =>
    obtain ⟨n0, hln, hnt⟩ := hlast
    rw [List.replicate_succ, runOps_cons]
    have hr : nextInsnReachable b = true :=
      nextInsnReachable_of_last b n0 hln hnt
    have hstep : b.applyOp (.mov64 1 2) =
        { b with insns := b.insns ++ [movInsn] } :=
      mov64_step_disabled b 1 2 hdis hr
    have hnext := ih { b with insns := b.insns ++ [movInsn] } hdis
      ⟨movInsn, getLast?_append_singleton b.insns movInsn,
        movInsn_not_terminal⟩
    rw [hstep, hnext, List.replicate_succ, List.append_assoc]
    rfl

theorem lookupA_setA_self {κ α : Type} [DecidableEq κ]
    (m : List (κ × α)) (k : κ) (v : α) :
    lookupA (setA m k v) k = some v := by
  induction m with
  | nil =>
    unfold setA lookupA
    rw [if_pos rfl]
  | cons p rest ih =>
    obtain ⟨k', w⟩ := p
    unfold setA
    by_cases hk : k' = k
    · rw [if_pos hk]
      unfold lookupA
      rw [if_pos rfl]
    · rw [if_neg hk]
      unfold lookupA
      rw [if_neg hk]
      exact ih

theorem fixupsFor_setA_maps (b : Block) (L : String) (n : Nat)
    (ls : List String) :
    fixupsFor { b with
      labelToInsnIdx := setA b.labelToInsnIdx L n
      insnIdxToLabels := setA b.insnIdxToLabels n ls } L =
      fixupsFor b L := rfl

theorem patchOffset_cons_zero (x : Insn) (xs : List Insn) (off : Int) :
    patchOffset (x :: xs) 0 off = patchInsnOffset x off :: xs := rfl

theorem patchOffset_at_append (xs : List Insn) (y : Insn) (ys : List Insn)
    (off : Int) :
    patchOffset (xs ++ y :: ys) xs.length off =
      xs ++ patchInsnOffset y off :: ys := by
  induction xs with
  | nil => rfl
  | cons x rest ih =>
    show patchOffset (x :: (rest ++ y :: ys)) (rest.length + 1) off = _
    unfold patchOffset
    rw [ih]
    rfl

/-- Binding a label whose single pending fixup resolves in range patches
the instruction and clears the entry. -/
theorem labelNextInsn_single_fixup_ok (b : Block) (L : String) (i : Nat)
    (hfix : fixupsFor b L = [i])
    (hok : ¬(((b.insns.length : Int) - i - 1 = -1) ∨
      ((b.insns.length : Int) - i - 1 > 32767 ∨
        (b.insns.length : Int) - i - 1 < -32768))) :
    b.labelNextInsn L = { b with
      labelToInsnIdx := setA b.labelToInsnIdx L b.insns.length
      insnIdxToLabels := setA b.insnIdxToLabels b.insns.length
        (labelsAt b.insnIdxToLabels b.insns.length ++ [L])
      insns := patchOffset b.insns i ((b.insns.length : Int) - i - 1)
      fixUps := removeA b.fixUps L } := by
  have h1 : ¬((b.insns.length : Int) - i - 1 = -1) :=
    fun hc => hok (Or.inl hc)
  have h2 : ¬((b.insns.length : Int) - i - 1 > 32767 ∨
      (b.insns.length : Int) - i - 1 < -32768) :=
    fun hc => hok (Or.inr hc)
  simp only [Block.labelNextInsn]
  have hB : ({ b with
      labelToInsnIdx := setA b.labelToInsnIdx L b.insns.length
      insnIdxToLabels := setA b.insnIdxToLabels b.insns.length
        (labelsAt b.insnIdxToLabels b.insns.length ++ [L]) } :
      Block).applyFixUpsB L =
      ({ b with
        labelToInsnIdx := setA b.labelToInsnIdx L b.insns.length
        insnIdxToLabels := setA b.insnIdxToLabels b.insns.length
          (labelsAt b.insnIdxToLabels b.insns.length ++ [L])
        insns := patchOffset b.insns i ((b.insns.length : Int) - i - 1)
        fixUps := removeA b.fixUps L }, none) := by
    unfold Block.applyFixUpsB
    rw [show fixupsFor { b with
        labelToInsnIdx := setA b.labelToInsnIdx L b.insns.length
        insnIdxToLabels := setA b.insnIdxToLabels b.insns.length
          (labelsAt b.insnIdxToLabels b.insns.length ++ [L]) } L =
      [i] from hfix]
    rw [show lookupA (setA b.labelToInsnIdx L b.insns.length) L =
      some b.insns.length from lookupA_setA_self _ _ _]
    rw [applyFixUpsLoop_single, if_neg h1, if_neg h2]
  rw [hB]

/-- Binding a label whose single pending fixup is out of range (or a
self-jump) latches the deferred error and leaves the instructions and the
fixup entry untouched. -/
theorem labelNextInsn_single_fixup_err (b : Block) (L : String) (i : Nat)
    (hfix : fixupsFor b L = [i])
    (hdef : b.deferredErr = none)
    (e : AsmErr)
    (he : e = (if (b.insns.length : Int) - i - 1 = -1 then
      .sameInsnJump ((b.insns.length : Int) - i - 1) L
      else .offsetOutOfRange ((b.insns.length : Int) - i - 1) L))
    (herr : ((b.insns.length : Int) - i - 1 = -1) ∨
      ((b.insns.length : Int) - i - 1 > 32767 ∨
        (b.insns.length : Int) - i - 1 < -32768)) :
    b.labelNextInsn L = { b with
      labelToInsnIdx := setA b.labelToInsnIdx L b.insns.length
      insnIdxToLabels := setA b.insnIdxToLabels b.insns.length
        (labelsAt b.insnIdxToLabels b.insns.length ++ [L])
      deferredErr := some (.applyFixUpsFailed L b.insns.length e) } := by
  simp only [Block.labelNextInsn]
  have hB : ({ b with
      labelToInsnIdx := setA b.labelToInsnIdx L b.insns.length
      insnIdxToLabels := setA b.insnIdxToLabels b.insns.length
        (labelsAt b.insnIdxToLabels b.insns.length ++ [L]) } :
      Block).applyFixUpsB L =
      ({ b with
        labelToInsnIdx := setA b.labelToInsnIdx L b.insns.length
        insnIdxToLabels := setA b.insnIdxToLabels b.insns.length
          (labelsAt b.insnIdxToLabels b.insns.length ++ [L]) }, some e) := by
    unfold Block.applyFixUpsB
    rw [show fixupsFor { b with
        labelToInsnIdx := setA b.labelToInsnIdx L b.insns.length
        insnIdxToLabels := setA b.insnIdxToLabels b.insns.length
          (labelsAt b.insnIdxToLabels b.insns.length ++ [L]) } L =
      [i] from hfix]
    rw [show lookupA (setA b.labelToInsnIdx L b.insns.length) L =
      some b.insns.length from lookupA_setA_self _ _ _]
    rw [applyFixUpsLoop_single]
    rcases herr with h1 | h2
    · rw [if_pos h1, he, if_pos h1]
    · rw [if_neg (by omega), if_pos h2, he, if_neg (by omega)]
  rw [hB]
  simp [hdef]

theorem nextInsnReachable_of_inuse (b : Block) (n : Insn) (l : String)
    (hlast : b.insns.getLast? = some n)
    (hl : l ∈ labelsAt b.insnIdxToLabels b.insns.length)
    (hin : l ∈ b.inUseJumpTargets) :
    nextInsnReachable b = true := by
  rw [nextInsnReachable_some b n hlast]
  by_cases h5 : n.opCode = JumpA ∨ n.opCode = Exit
  · rw [if_pos h5]
    rw [List.any_eq_true]
    exact ⟨l, hl, List.elem_iff.mpr hin⟩
  · rw [if_neg h5]

theorem assemble_of_deferred (b : Block) (e : AsmErr)
    (h : b.deferredErr = some e) : b.assemble = .error e := by
  unfold Block.assemble
  rw [h]

theorem mov64_run_near (k : Nat) (b : Block)
    (hroom : (b.insns.length : Int) + k ≤ (b.lastTrampolineAddr : Int) +
      b.trampolineStride)
    (hlast : ∃ n, b.insns.getLast? = some n ∧
      ¬(n.opCode = JumpA ∨ n.opCode = Exit)) :
    b.runOps (List.replicate k (.mov64 1 2)) =
      { b with insns := b.insns ++ List.replicate k movInsn } := by
  induction k generalizing b with
  | zero =>
    show b = _
    rw [List.replicate, List.append_nil]
  | succ k ih =>
    obtain ⟨n0, hln, hnt⟩ := hlast
    rw [List.replicate_succ, runOps_cons]
    have hr : nextInsnReachable b = true :=
      nextInsnReachable_of_last b n0 hln hnt
    have hstep : b.applyOp (.mov64 1 2) =
        { b with insns := b.insns ++ [movInsn] } :=
      mov64_step_near b 1 2 (by omega) hr
    have hroom2 : (({ b with insns := b.insns ++ [movInsn] } :
        Block).insns.length : Int) + k ≤
        (({ b with insns := b.insns ++ [movInsn] } :
          Block).lastTrampolineAddr : Int) +
        ({ b with insns := b.insns ++ [movInsn] } : Block).trampolineStride
        := by
      show ((b.insns ++ [movInsn]).length : Int) + k ≤
        (b.lastTrampolineAddr : Int) + b.trampolineStride
      rw [List.length_append, List.length_singleton]
      push_cast
      omega
    have hnext := ih { b with insns := b.insns ++ [movInsn] } hroom2
      ⟨movInsn, getLast?_append_singleton b.insns movInsn,
        movInsn_not_terminal⟩
    rw [hstep, hnext, List.replicate_succ, List.append_assoc]
    rfl

theorem spanNoTramp_decomp :
    (NewBlock false).runOps (spanProgNoTramp 32768) =
      (((((NewBlock false).applyOp (.setTrampolinesEnabled false)).applyOp
        (.jumpEq64 1 2 "L")).runOps
        (List.replicate 32768 (.mov64 1 2))).labelNextInsn "L").exitInsn := by
  unfold spanProgNoTramp spanProg
  rw [runOps_cons, runOps_append, runOps_append]
  rw [show ∀ b : Block, b.runOps [BuilderOp.jumpEq64 1 2 "L"] =
    b.applyOp (.jumpEq64 1 2 "L") from fun b => rfl]
  rw [show ∀ b : Block, b.runOps [BuilderOp.labelOp "L", .exitOp] =
    (b.labelNextInsn "L").exitInsn from fun b => rfl]

theorem spanNoTramp_head :
    ((NewBlock false).applyOp (.setTrampolinesEnabled false)).applyOp
      (.jumpEq64 1 2 "L") = spanS1Dis := by decide

theorem spanNoTramp_movs :
    spanS1Dis.runOps (List.replicate 32768 (.mov64 1 2)) = spanS2Dis :=
  mov64_run_disabled 32768 spanS1Dis rfl ⟨jeqInsn, by decide, by decide⟩

theorem spanS2Dis_len : spanS2Dis.insns.length = 32769 := by
  show ([jeqInsn] ++ List.replicate 32768 movInsn).length = 32769
  rw [List.length_append, List.length_replicate, List.length_singleton]

theorem spanNoTramp_bind_deferred :
    (spanS2Dis.labelNextInsn "L").deferredErr =
      some (.applyFixUpsFailed "L" 32769 (.offsetOutOfRange 32768 "L")) := by
  have hbind := labelNextInsn_single_fixup_err spanS2Dis "L" 0 rfl rfl
    (.offsetOutOfRange 32768 "L")
    (by rw [spanS2Dis_len]; norm_num)
    (by rw [spanS2Dis_len]; norm_num)
  rw [hbind]
  show some (AsmErr.applyFixUpsFailed "L" spanS2Dis.insns.length
    (.offsetOutOfRange 32768 "L")) = _
  rw [spanS2Dis_len]

theorem spanNoTramp_error :
    ((NewBlock false).runOps (spanProgNoTramp 32768)).assemble =
      .error (.applyFixUpsFailed "L" 32769 (.offsetOutOfRange 32768 "L")) := by
  rw [spanNoTramp_decomp, spanNoTramp_head, spanNoTramp_movs]
  apply assemble_of_deferred
  exact add_deferred_some (spanS2Dis.labelNextInsn "L") Exit 0 0 0 0 "" _
    spanNoTramp_bind_deferred

theorem patchOffset_length (xs : List Insn) (i : Nat) (off : Int) :
    (patchOffset xs i off).length = xs.length := by
  induction xs generalizing i with
  | nil => rfl
  | cons x rest ih =>
    cases i with
    | zero => rfl
    | succ j =>
      show (x :: patchOffset rest j off).length = (x :: rest).length
      rw [List.length_cons, List.length_cons, ih]

theorem patchOffset_append_lt (xs ys : List Insn) (i : Nat) (off : Int)
    (h : i < xs.length) :
    patchOffset (xs ++ ys) i off = patchOffset xs i off ++ ys := by
  induction xs generalizing i with
  | nil => cases h
  | cons x rest ih =>
    cases i with
    | zero => rfl
    | succ j =>
      show x :: patchOffset (rest ++ ys) j off =
        x :: (patchOffset rest j off ++ ys)
      rw [ih j (by rw [List.length_cons] at h; omega)]

theorem writeTrampolineWith_nonempty (b : Block) (order : List String)
    (hne : b.fixUps.isEmpty = false) :
    b.writeTrampolineWith order =
      ((List.insertionSort (fun a c => a ≤ c) order).foldl
        (fun bb l => (bb.labelNextInsn l).jumpNoTrampoline l)
        (({ b with
            lastTrampolineAddr := b.insns.length
            trampolineIdx := b.trampolineIdx + 1 } : Block).jumpNoTrampoline
          ("skip-trampoline-" ++ toString b.trampolineIdx))).labelNextInsn
        ("skip-trampoline-" ++ toString b.trampolineIdx) := by
  simp only [Block.writeTrampolineWith]
  rw [if_neg (show ¬(({ b with
      lastTrampolineAddr := b.insns.length } : Block).fixUps.isEmpty = true)
    from by
      rw [show ({ b with lastTrampolineAddr := b.insns.length } :
        Block).fixUps = b.fixUps from rfl, hne]
      simp)]

theorem getLast?_append_replicate {α : Type} (xs : List α) (a : α)
    (k : Nat) (hk : 0 < k) :
    (xs ++ List.replicate k a).getLast? = some a := by
  obtain ⟨n, rfl⟩ : ∃ n, k = n + 1 := ⟨k - 1, by omega⟩
  rw [List.replicate_succ', ← List.append_assoc]
  exact getLast?_append_singleton _ _

theorem spanS2En_len : spanS2En.insns.length = 32667 := by
  show ([jeqInsn] ++ List.replicate 32666 movInsn).length = 32667
  rw [List.length_append, List.length_replicate, List.length_singleton]

theorem spanS2En_last : spanS2En.insns.getLast? = some movInsn := by
  show ([jeqInsn] ++ List.replicate 32666 movInsn).getLast? = some movInsn
  exact getLast?_append_replicate _ movInsn _ (by norm_num)

theorem spanEn_movs1 :
    spanS1En.runOps (List.replicate 32666 (.mov64 1 2)) = spanS2En :=
  mov64_run_near 32666 spanS1En (by decide)
    ⟨jeqInsn, by decide, by decide⟩

theorem spanB1En_jump :
    spanB1En.jumpNoTrampoline "skip-trampoline-0" = spanB2En := by
  rw [jumpNoTramp_step spanB1En "skip-trampoline-0" rfl (by decide)
    (nextInsnReachable_of_last spanB1En movInsn spanS2En_last
      movInsn_not_terminal)]
  rw [show spanB1En.insns.length = 32667 from spanS2En_len]
  rfl

theorem spanB2En_len : spanB2En.insns.length = 32668 := by
  show (spanS2En.insns ++ [jmpAInsn]).length = 32668
  rw [List.length_append, spanS2En_len, List.length_singleton]

theorem spanB2En_bind : spanB2En.labelNextInsn "L" = spanB3En := by
  have hval : ((spanB2En.insns.length : Int) - ((0 : Nat) : Int) - 1) =
      (32667 : Int) := by
    rw [spanB2En_len]
    norm_num
  rw [labelNextInsn_single_fixup_ok spanB2En "L" 0 rfl
    (by rw [spanB2En_len]; omega)]
  rw [hval, spanB2En_len]
  rfl

theorem spanB3En_len : spanB3En.insns.length = 32668 := by
  show (patchOffset (spanS2En.insns ++ [jmpAInsn]) 0 32667).length = 32668
  rw [patchOffset_length, List.length_append, spanS2En_len,
    List.length_singleton]

theorem spanB3En_shape :
    spanB3En.insns = patchOffset spanS2En.insns 0 32667 ++ [jmpAInsn] := by
  show patchOffset (spanS2En.insns ++ [jmpAInsn]) 0 32667 = _
  exact patchOffset_append_lt spanS2En.insns [jmpAInsn] 0 32667
    (by rw [spanS2En_len]; norm_num)

theorem spanB3En_last : spanB3En.insns.getLast? = some jmpAInsn := by
  rw [spanB3En_shape]
  exact getLast?_append_singleton _ _

theorem spanB3En_reach : nextInsnReachable spanB3En = true := by
  apply nextInsnReachable_of_inuse spanB3En jmpAInsn "L" spanB3En_last
  · rw [spanB3En_len]
    decide
  · decide

theorem spanB3En_jump : spanB3En.jumpNoTrampoline "L" = spanB4En := by
  rw [jumpNoTramp_step spanB3En "L" rfl (by decide) spanB3En_reach]
  rw [show spanB3En.insns.length = 32668 from spanB3En_len]
  rfl

theorem spanB4En_len : spanB4En.insns.length = 32669 := by
  show (patchOffset (spanS2En.insns ++ [jmpAInsn]) 0 32667 ++
    [jmpAInsn]).length = 32669
  rw [List.length_append, patchOffset_length, List.length_append,
    spanS2En_len, List.length_singleton]

theorem spanB4En_bind :
    spanB4En.labelNextInsn "skip-trampoline-0" = spanWTEn := by
  have hval : ((spanB4En.insns.length : Int) - ((32667 : Nat) : Int) - 1) =
      (1 : Int) := by
    rw [spanB4En_len]
    norm_num
  have hPA : (patchOffset spanS2En.insns 0 32667).length = 32667 := by
    rw [patchOffset_length, spanS2En_len]
  rw [labelNextInsn_single_fixup_ok spanB4En "skip-trampoline-0" 32667 rfl
    (by rw [spanB4En_len]; omega)]
  rw [hval, spanB4En_len]
  rw [show spanB4En.insns =
    patchOffset (spanS2En.insns ++ [jmpAInsn]) 0 32667 ++ [jmpAInsn]
    from rfl]
  rw [patchOffset_append_lt (patchOffset (spanS2En.insns ++ [jmpAInsn])
    0 32667) [jmpAInsn] 32667 1
    (by rw [patchOffset_length, List.length_append, spanS2En_len,
      List.length_singleton]; norm_num)]
  rw [patchOffset_append_lt spanS2En.insns [jmpAInsn] 0 32667
    (by rw [spanS2En_len]; norm_num)]
  rw [← hPA, patchOffset_at_append]
  rfl

theorem spanS2En_wt : spanS2En.writeTrampoline = spanWTEn := by
  have e0 : spanS2En.writeTrampoline = spanS2En.writeTrampolineWith ["L"] := by
    unfold Block.writeTrampoline
    rw [show keysOf spanS2En.fixUps = ["L"] from rfl]
  rw [e0, writeTrampolineWith_nonempty spanS2En ["L"] rfl]
  rw [show ("skip-trampoline-" ++ toString spanS2En.trampolineIdx) =
    "skip-trampoline-0" from rfl]
  rw [show List.insertionSort (fun a c : String => a ≤ c) ["L"] = ["L"]
    from rfl]
  rw [show ({ spanS2En with
    lastTrampolineAddr := spanS2En.insns.length
    trampolineIdx := spanS2En.trampolineIdx + 1 } : Block) = spanB1En
    from by rw [spanS2En_len]; rfl]
  rw [show ∀ b : Block, ["L"].foldl
    (fun bb l => (bb.labelNextInsn l).jumpNoTrampoline l) b =
    (b.labelNextInsn "L").jumpNoTrampoline "L" from fun b => rfl]
  rw [spanB1En_jump, spanB2En_bind, spanB3En_jump]
  exact spanB4En_bind

theorem spanWTEn_len : spanWTEn.insns.length = 32669 := by
  show ((patchOffset spanS2En.insns 0 32667 ++ [patchInsnOffset jmpAInsn 1])
    ++ [jmpAInsn]).length = 32669
  rw [List.length_append, List.length_append, patchOffset_length,
    spanS2En_len, List.length_singleton]
  simp

theorem spanWTEn_last : spanWTEn.insns.getLast? = some jmpAInsn := by
  show ((patchOffset spanS2En.insns 0 32667 ++ [patchInsnOffset jmpAInsn 1])
    ++ [jmpAInsn]).getLast? = some jmpAInsn
  exact getLast?_append_singleton _ _

theorem spanWTEn_reach : nextInsnReachable spanWTEn = true := by
  apply nextInsnReachable_of_inuse spanWTEn jmpAInsn "skip-trampoline-0"
    spanWTEn_last
  · rw [spanWTEn_len]
    decide
  · decide

theorem spanS2En_tramp_mov : spanS2En.applyOp (.mov64 1 2) = spanS3En := by
  show spanS2En.mov64 1 2 = spanS3En
  have hid : ({ MakeInsn Mov64 (1 : Int) (2 : Int) 0 0 with
      annot := "" } : Insn) = MakeInsn Mov64 1 2 0 0 := rfl
  unfold Block.mov64 Block.add Block.addInsn Block.addInsnWithOffsetFixup
  rw [hid]
  rw [maybeWT_fires spanS2En (MakeInsn Mov64 1 2 0 0) rfl
    (by rw [spanS2En_len]; decide) (by decide)]
  rw [spanS2En_wt]
  rw [addNoTramp_flat spanWTEn (MakeInsn Mov64 1 2 0 0) "" spanWTEn_reach]
  rw [if_neg (show ¬((MakeInsn Mov64 1 2 0 0).opClass = OpClassJump64 ∨
      (MakeInsn Mov64 1 2 0 0).opClass = OpClassJump32) from by
    rw [opClass_makeInsn]
    decide)]
  rw [if_pos rfl, if_neg (fun hc => hc.2 rfl)]
  rfl

theorem spanS3En_len : spanS3En.insns.length = 32670 := by
  show (spanWTEn.insns ++ [movInsn]).length = 32670
  rw [List.length_append, spanWTEn_len, List.length_singleton]

theorem spanEn_movs2 :
    spanS3En.runOps (List.replicate 101 (.mov64 1 2)) = spanS4En :=
  mov64_run_near 101 spanS3En (by rw [spanS3En_len]; decide)
    ⟨movInsn, getLast?_append_singleton spanWTEn.insns movInsn,
      movInsn_not_terminal⟩

theorem spanS4En_len : spanS4En.insns.length = 32771 := by
  show (spanS3En.insns ++ List.replicate 101 movInsn).length = 32771
  rw [List.length_append, spanS3En_len, List.length_replicate]

theorem spanS4En_bind : spanS4En.labelNextInsn "L" = spanS5En := by
  have hval : ((spanS4En.insns.length : Int) - ((32668 : Nat) : Int) - 1) =
      (102 : Int) := by
    rw [spanS4En_len]
    norm_num
  rw [labelNextInsn_single_fixup_ok spanS4En "L" 32668 rfl
    (by rw [spanS4En_len]; omega)]
  rw [hval, spanS4En_len]
  rfl

theorem spanS5En_len : spanS5En.insns.length = 32771 := by
  show (patchOffset spanS4En.insns 32668 102).length = 32771
  rw [patchOffset_length, spanS4En_len]

theorem spanS5En_shape : spanS5En.insns =
    patchOffset spanS3En.insns 32668 102 ++ List.replicate 101 movInsn := by
  show patchOffset (spanS3En.insns ++ List.replicate 101 movInsn)
    32668 102 = _
  exact patchOffset_append_lt _ _ _ _ (by rw [spanS3En_len]; norm_num)

theorem spanS5En_last : spanS5En.insns.getLast? = some movInsn := by
  rw [spanS5En_shape]
  exact getLast?_append_replicate _ _ _ (by norm_num)

theorem spanS5En_exit : spanS5En.exitInsn = spanS6En := by
  rw [exit_step_near spanS5En (by rw [spanS5En_len]; decide)
    (nextInsnReachable_of_last spanS5En movInsn spanS5En_last
      movInsn_not_terminal)]
  rfl

theorem spanEn_decomp :
    (NewBlock false).runOps (spanProg 32768) =
      ((((((NewBlock false).applyOp (.jumpEq64 1 2 "L")).runOps
        (List.replicate 32666 (.mov64 1 2))).applyOp (.mov64 1 2)).runOps
        (List.replicate 101 (.mov64 1 2))).labelNextInsn "L").exitInsn := by
  unfold spanProg
  rw [show List.replicate 32768 (BuilderOp.mov64 1 2) =
    List.replicate 32666 (BuilderOp.mov64 1 2) ++
      (BuilderOp.mov64 1 2 :: List.replicate 101 (BuilderOp.mov64 1 2))
    from by
      rw [show (32768 : Nat) = 32666 + 102 from by norm_num,
        List.replicate_add,
        show List.replicate 102 (BuilderOp.mov64 1 2) =
          BuilderOp.mov64 1 2 :: List.replicate 101 (BuilderOp.mov64 1 2)
          from rfl]]
  rw [runOps_append, runOps_append, runOps_append]
  rw [show ∀ b : Block, b.runOps [BuilderOp.jumpEq64 1 2 "L"] =
    b.applyOp (.jumpEq64 1 2 "L") from fun b => rfl]
  rw [show ∀ b : Block, b.runOps [BuilderOp.labelOp "L", .exitOp] =
    (b.labelNextInsn "L").exitInsn from fun b => rfl]
  rw [show ∀ b : Block, b.runOps (BuilderOp.mov64 1 2 ::
      List.replicate 101 (BuilderOp.mov64 1 2)) =
    (b.applyOp (.mov64 1 2)).runOps
      (List.replicate 101 (BuilderOp.mov64 1 2)) from
    fun b => runOps_cons b _ _]

theorem spanEn_head :
    (NewBlock false).applyOp (.jumpEq64 1 2 "L") = spanS1En := by decide

theorem spanEn_trace :
    (NewBlock false).runOps (spanProg 32768) = spanS6En := by
  rw [spanEn_decomp, spanEn_head, spanEn_movs1, spanS2En_tramp_mov,
    spanEn_movs2, spanS4En_bind]
  exact spanS5En_exit

theorem spanEn_assemble :
    ((NewBlock false).runOps (spanProg 32768)).assemble =
      .ok spanS6En.insns := by
  rw [spanEn_trace]
  rfl

/-- C3 counterexample: `shortSpanProg` configures a trampoline stride of
5, disables trampolines, and contains a forward jump spanning 11 > 5
instructions (fixup at index 0, label bound at index 11), yet assembly
succeeds — refuting the claim that, for every input whose forward jump
spans more instructions than the configured stride, assembly fails with a
RangeError when `trampolinesEnabled=false`. The failure only occurs once
the span leaves the signed 16-bit offset range. -/
theorem C3_trampoline_correctness_cx :
    ((NewBlock false).runOps shortSpanProg).trampolineStride = 5 ∧
    ((NewBlock false).runOps shortSpanProg).trampolinesEnabled = false ∧
    lookupA ((NewBlock false).runOps shortSpanProg).labelToInsnIdx "L" =
      some 11 ∧
    asmOk ((NewBlock false).runOps shortSpanProg).assemble = true := by
  decide

/-- C3 (amended): for the synthetic program whose forward jump spans
32768 filler instructions — more than the default trampoline stride of
32667, and beyond the signed 16-bit offset range — assembly succeeds
when trampolines are enabled (relay blocks keep every encoded offset in
range), and the identical call sequence with `SetTrampolinesEnabled
(false)` prepended fails with an error wrapping a RangeError
(`offsetOutOfRange 32768`). -/
theorem C3_trampoline_correctness :
    asmOk ((NewBlock false).runOps (spanProg 32768)).assemble = true ∧
    ((NewBlock false).runOps (spanProgNoTramp 32768)).assemble =
      .error (.applyFixUpsFailed "L" 32769 (.offsetOutOfRange 32768 "L")) ∧
    isRangeError (.offsetOutOfRange 32768 "L") = true := by
  refine ⟨?_, spanNoTramp_error, by decide⟩
  rw [spanEn_assemble]
  rfl

end BpfAsm
